import Mathlib

/-!
Verification of the us-equity-analyzer-pro orchestration engine.

Shallow embedding of the pure computational cores of `src/server.js`,
`src/lib/historicalPrice.js` and the momentum module
(`src/unnamed/part_009`), with theorems checking the specification's
claims about them.

JavaScript values that flow through the compaction and normalization
layers are modelled by the `JsonVal` inductive below: finite numbers
become rationals, non-finite numbers (`NaN`, `±Infinity`) get their own
constructor, and strings are lists of characters (JS `.length` and
`.slice` act on code units; the claims at issue only involve plain
characters).
-/

set_option maxRecDepth 4000

namespace EquityAnalyzer

/-- A JSON-ish JavaScript value as seen by `slimValue`. -/
inductive JsonVal where
  | jnull
  | jbool (b : Bool)
  | jnum (q : ℚ)
  | jnumNonFinite
  | jstr (s : List Char)
  | jarr (items : List JsonVal)
  | jobj (fields : List (String × JsonVal))
deriving Repr

/-- Is this value JS `null` (the `jnull` constructor)? -/
def JsonVal.isNull : JsonVal → Bool
  | .jnull => true
  | _ => false

/-- Contiguous-subsequence test on character lists (what a fixed-word
regex test performs on a string). -/
def hasSub (pat : List Char) : List Char → Bool
  | [] => pat.isEmpty
  | c :: rest => List.isPrefixOf pat (c :: rest) || hasSub pat rest

/-- The regex test `/summary|explanation|mda/i.test(key || '')` from
`slimValue` (src/server.js:200): case-insensitive substring search. -/
def keyMatches (key : String) : Bool :=
  let l := key.toList.map Char.toLower
  hasSub ("summary".toList) l
    || hasSub ("explanation".toList) l
    || hasSub ("mda".toList) l

mutual

/-- `slimValue(value, key)` from src/server.js:197-219.
`value == null` covers both `null` and `undefined`; `typeof value ===
'number' && !Number.isFinite(value)` is the `jnumNonFinite` case; the
final `return value` catches booleans (and finite numbers fall through
the object/array tests unchanged). -/
def slimValue : JsonVal → String → JsonVal
  | .jnull, _ => .jnull
  | .jstr s, key =>
      let limit : Nat := if keyMatches key then 900 else 300
      if limit < s.length then .jstr (s.take limit ++ ("...".toList)) else .jstr s
  | .jnum q, _ => .jnum q
  | .jnumNonFinite, _ => .jnull
  | .jobj fields, _ =>
      let out := slimFields fields
      if out.isEmpty then .jnull else .jobj out
  | .jarr items, key =>
      let arr := slimItems items key
      if arr.isEmpty then .jnull else .jarr arr
  | .jbool b, _ => .jbool b

/-- The `for(const [k,v] of Object.entries(value))` loop of the object
branch: each field is slimmed under its own key and `null` results are
dropped. -/
def slimFields : List (String × JsonVal) → List (String × JsonVal)
  | [] => []
  | (k, v) :: rest =>
      let s := slimValue v k
      let tail := slimFields rest
      if s.isNull then tail else (k, s) :: tail

/-- The `value.map(item=>slimValue(item, key)).filter(item=>item!=null)`
of the array branch: items are slimmed under the array's own key. -/
def slimItems : List JsonVal → String → List JsonVal
  | [], _ => []
  | v :: rest, key =>
      let s := slimValue v key
      let tail := slimItems rest key
      if s.isNull then tail else s :: tail

end

lemma slimValue_jnull (k : String) : slimValue .jnull k = .jnull := by
  rw [slimValue.eq_def]

lemma slimValue_jbool (b : Bool) (k : String) : slimValue (.jbool b) k = .jbool b := by
  rw [slimValue.eq_def]

lemma slimValue_jnum (q : ℚ) (k : String) : slimValue (.jnum q) k = .jnum q := by
  rw [slimValue.eq_def]

lemma slimValue_jnumNonFinite (k : String) : slimValue .jnumNonFinite k = .jnull := by
  rw [slimValue.eq_def]

lemma slimValue_jstr (s : List Char) (k : String) :
    slimValue (.jstr s) k =
      if (if keyMatches k then 900 else 300) < s.length
      then .jstr (s.take (if keyMatches k then 900 else 300) ++ ("...".toList))
      else .jstr s := by
  rw [slimValue.eq_def]

lemma slimValue_jobj (fields : List (String × JsonVal)) (k : String) :
    slimValue (.jobj fields) k =
      if (slimFields fields).isEmpty then .jnull else .jobj (slimFields fields) := by
  rw [slimValue.eq_def]

lemma slimValue_jarr (items : List JsonVal) (k : String) :
    slimValue (.jarr items) k =
      if (slimItems items k).isEmpty then .jnull else .jarr (slimItems items k) := by
  rw [slimValue.eq_def]

lemma slimFields_nil : slimFields [] = [] := by
  rw [slimFields.eq_def]

lemma slimFields_cons (k : String) (v : JsonVal) (rest : List (String × JsonVal)) :
    slimFields ((k, v) :: rest) =
      if (slimValue v k).isNull then slimFields rest
      else (k, slimValue v k) :: slimFields rest := by
  rw [slimFields.eq_def]

lemma slimItems_nil (key : String) : slimItems [] key = [] := by
  rw [slimItems.eq_def]

lemma slimItems_cons (v : JsonVal) (rest : List JsonVal) (key : String) :
    slimItems (v :: rest) key =
      if (slimValue v key).isNull then slimItems rest key
      else slimValue v key :: slimItems rest key := by
  rw [slimItems.eq_def]

/-- JS truthiness of a `JsonVal` (`!payload`): `null`/`undefined`,
`false`, `0`, `NaN` and the empty string are falsy. -/
def jsTruthy : JsonVal → Bool
  | .jnull => false
  | .jbool b => b
  | .jnum q => q ≠ 0
  | .jnumNonFinite => false
  | .jstr s => !s.isEmpty
  | .jarr _ => true
  | .jobj _ => true

/-- `buildSlimPayload(payload)` from src/server.js:221-224. -/
def buildSlimPayload (payload : JsonVal) : JsonVal :=
  if !(jsTruthy payload) then payload else slimValue payload ""

lemma slimFields_slimFields (fields : List (String × JsonVal))
    (H : ∀ p ∈ fields, slimValue (slimValue p.2 p.1) p.1 = slimValue p.2 p.1) :
    slimFields (slimFields fields) = slimFields fields := by
  induction fields with
  | nil => rfl
  | cons hd rest ih =>
      obtain ⟨k, v⟩ := hd
      have hv : slimValue (slimValue v k) k = slimValue v k := H (k, v) (by simp)
      have ihr : slimFields (slimFields rest) = slimFields rest :=
        ih (fun p hp => H p (by simp [hp]))
      by_cases hn : (slimValue v k).isNull
      · simp [slimFields_cons, hn, ihr]
      · simp [slimFields_cons, hn, hv, ihr]

lemma slimItems_slimItems (items : List JsonVal) (key : String)
    (H : ∀ v ∈ items, slimValue (slimValue v key) key = slimValue v key) :
    slimItems (slimItems items key) key = slimItems items key := by
  induction items with
  | nil => rfl
  | cons v rest ih =>
      have hv : slimValue (slimValue v key) key = slimValue v key := H v (by simp)
      have ihr : slimItems (slimItems rest key) key = slimItems rest key :=
        ih (fun w hw => H w (by simp [hw]))
      by_cases hn : (slimValue v key).isNull
      · simp [slimItems_cons, hn, ihr]
      · simp [slimItems_cons, hn, hv, ihr]

lemma slimValue_idem_bounded :
    ∀ n : ℕ, ∀ v : JsonVal, ∀ k : String, sizeOf v ≤ n →
      slimValue (slimValue v k) k = slimValue v k := by
  intro n
  induction n with
  | zero =>
      intro v k h
      exfalso
      cases v <;> simp_all
  | succ n ih =>
      intro v k h
      cases v with
      | jnull => simp only [slimValue_jnull]
      | jbool b => simp only [slimValue_jbool]
      | jnum q => simp only [slimValue_jnum]
      | jnumNonFinite => simp only [slimValue_jnumNonFinite, slimValue_jnull]
      | jstr s =>
          rw [slimValue_jstr]
          by_cases hl : (if keyMatches k then 900 else 300) < s.length
          · rw [if_pos hl]
            rw [slimValue_jstr]
            have htl : (s.take (if keyMatches k then 900 else 300)).length
                = (if keyMatches k then 900 else 300) := by
              simp [List.length_take]
              omega
            have hlen : (s.take (if keyMatches k then 900 else 300)
                ++ ("...".toList)).length
                = (if keyMatches k then 900 else 300) + 3 := by
              simp [htl]
            have hlt : (if keyMatches k then 900 else 300) <
                (s.take (if keyMatches k then 900 else 300) ++ ("...".toList)).length := by
              rw [hlen]; omega
            rw [if_pos hlt]
            congr 1
            rw [List.take_append_eq_append_take, htl]
            simp
          · rw [if_neg hl, slimValue_jstr, if_neg hl]
      | jobj fields =>
          have hsz : sizeOf fields ≤ n := by
            have hspec : sizeOf (JsonVal.jobj fields) = 1 + sizeOf fields := by simp
            omega
          have H : ∀ p ∈ fields, slimValue (slimValue p.2 p.1) p.1 = slimValue p.2 p.1 := by
            intro p hp
            have hlt : sizeOf p < sizeOf fields := List.sizeOf_lt_of_mem hp
            obtain ⟨a, b⟩ := p
            have hb : sizeOf b ≤ n := by
              have hs : sizeOf (a, b) = 1 + sizeOf a + sizeOf b := by simp
              omega
            exact ih b a hb
          rw [slimValue_jobj]
          by_cases he : (slimFields fields).isEmpty
          · rw [if_pos he, slimValue_jnull]
          · rw [if_neg he, slimValue_jobj, slimFields_slimFields fields H, if_neg he]
      | jarr items =>
          have hsz : sizeOf items ≤ n := by
            have hspec : sizeOf (JsonVal.jarr items) = 1 + sizeOf items := by simp
            omega
          have H : ∀ v ∈ items, slimValue (slimValue v k) k = slimValue v k := by
            intro v hv
            have hlt : sizeOf v < sizeOf items := List.sizeOf_lt_of_mem hv
            exact ih v k (by omega)
          rw [slimValue_jarr]
          by_cases he : (slimItems items k).isEmpty
          · rw [if_pos he, slimValue_jnull]
          · rw [if_neg he, slimValue_jarr, slimItems_slimItems items k H, if_neg he]

/-- `slimValue` is idempotent at any fixed key. -/
lemma slimValue_idem (v : JsonVal) (k : String) :
    slimValue (slimValue v k) k = slimValue v k :=
  slimValue_idem_bounded (sizeOf v) v k le_rfl

/-- The object branch loop builds exactly the entry list with every
field slimmed under its own key and `null` results dropped. -/
lemma slimFields_eq (fields : List (String × JsonVal)) :
    slimFields fields =
      (fields.map (fun p => (p.1, slimValue p.2 p.1))).filter (fun p => !p.2.isNull) := by
  induction fields with
  | nil => rfl
  | cons hd rest ih =>
      obtain ⟨k, v⟩ := hd
      by_cases hn : (slimValue v k).isNull
      · simp [slimFields_cons, hn, ih, List.filter]
      · simp [slimFields_cons, hn, ih, List.filter]

/-- The array branch is the map-over-items-then-drop-nulls pipeline. -/
lemma slimItems_eq (items : List JsonVal) (key : String) :
    slimItems items key =
      (items.map (fun v => slimValue v key)).filter (fun v => !v.isNull) := by
  induction items with
  | nil => rfl
  | cons v rest ih =>
      by_cases hn : (slimValue v key).isNull
      · simp [slimItems_cons, hn, ih, List.filter]
      · simp [slimItems_cons, hn, ih, List.filter]

/-- The per-key string limit of the compactor. -/
def limOf (k : String) : ℕ := if keyMatches k then 900 else 300

/-- C10: the payload compaction function is idempotent: for every value
`v` and key `k`, `slimValue(slimValue(v, k), k)` equals
`slimValue(v, k)`; in particular compacting an already-compacted LLM
payload with `buildSlimPayload` leaves it unchanged. -/
theorem claim_C10_slim_idempotent :
    (∀ (v : JsonVal) (k : String), slimValue (slimValue v k) k = slimValue v k)
    ∧ ∀ p : JsonVal, buildSlimPayload (buildSlimPayload p) = buildSlimPayload p := by
  refine ⟨slimValue_idem, ?_⟩
  intro p
  by_cases ht : jsTruthy p
  · by_cases ht2 : jsTruthy (slimValue p "")
    · simp [buildSlimPayload, ht, ht2, slimValue_idem]
    · simp [buildSlimPayload, ht, ht2]
  · simp [buildSlimPayload, ht]

/-- C7 counterexample: on a 301-character string with a non-matching
key, `slimValue` returns a 303-character string (the 300-character
truncation with `...` appended), so the output is not "truncated to at
most 300 characters" as the claim states. -/
theorem claim_C7_counterexample :
    slimValue (.jstr (List.replicate 301 'a')) "" =
      .jstr (List.replicate 300 'a' ++ ("...".toList))
    ∧ ¬ ∀ t : List Char,
        slimValue (.jstr (List.replicate 301 'a')) "" = .jstr t → t.length ≤ 300 := by
  have hkm : keyMatches "" = false := by decide
  have h1 : slimValue (.jstr (List.replicate 301 'a')) "" =
      .jstr (List.replicate 300 'a' ++ ("...".toList)) := by
    rw [slimValue_jstr, hkm]
    simp [List.take_replicate]
  refine ⟨h1, fun hall => ?_⟩
  have hlen := hall _ h1
  simp at hlen

/-- C7 (amended): for strings within the key's limit (300, or 900 when
the key matches `summary|explanation|mda` case-insensitively) the input
is returned unchanged; for longer strings the output is the first
`limit` characters with `...` appended — `limit + 3` characters, not at
most `limit`; non-finite numbers become null; objects and arrays have
each entry slimmed (fields under their own key, array items under the
array's key), null results removed, and become null when nothing
remains. -/
theorem claim_C7_amended (v : JsonVal) (k : String) :
    (∀ s, v = .jstr s → s.length ≤ limOf k → slimValue v k = .jstr s)
    ∧ (∀ s, v = .jstr s → limOf k < s.length →
        slimValue v k = .jstr (s.take (limOf k) ++ ("...".toList))
        ∧ ∀ t, slimValue v k = .jstr t → t.length = limOf k + 3)
    ∧ (v = .jnumNonFinite → slimValue v k = .jnull)
    ∧ (∀ fields, v = .jobj fields →
        (slimFields fields =
          (fields.map (fun p => (p.1, slimValue p.2 p.1))).filter (fun p => !p.2.isNull))
        ∧ (slimFields fields = [] → slimValue v k = .jnull)
        ∧ (slimFields fields ≠ [] → slimValue v k = .jobj (slimFields fields)))
    ∧ (∀ items, v = .jarr items →
        (slimItems items k =
          (items.map (fun w => slimValue w k)).filter (fun w => !w.isNull))
        ∧ (slimItems items k = [] → slimValue v k = .jnull)
        ∧ (slimItems items k ≠ [] → slimValue v k = .jarr (slimItems items k))) := by
  refine ⟨?_, ?_, ?_, ?_, ?_⟩
  · intro s hv hle
    subst hv
    rw [slimValue_jstr]
    rw [if_neg (by simp [limOf] at hle; omega)]
  · intro s hv hlt
    subst hv
    simp only [limOf] at hlt
    have heq : slimValue (.jstr s) k =
        .jstr (s.take (limOf k) ++ ("...".toList)) := by
      rw [slimValue_jstr, if_pos hlt]
      simp [limOf]
    refine ⟨heq, fun t ht => ?_⟩
    rw [heq] at ht
    cases ht
    have : (s.take (limOf k)).length = limOf k := by
      simp only [List.length_take, limOf]
      omega
    simp [this]
  · intro hv; subst hv; exact slimValue_jnumNonFinite k
  · intro fields hv
    subst hv
    refine ⟨slimFields_eq fields, fun he => ?_, fun hne => ?_⟩
    · rw [slimValue_jobj, if_pos (by simp [he])]
    · rw [slimValue_jobj, if_neg (by simpa using hne)]
  · intro items hv
    subst hv
    refine ⟨slimItems_eq items k, fun he => ?_, fun hne => ?_⟩
    · rw [slimValue_jarr, if_pos (by simp [he])]
    · rw [slimValue_jarr, if_neg (by simpa using hne)]

/-- C7 amended witness: the amended theorem evaluated on a concrete
301-character string. -/
theorem claim_C7_amended_witness :
    slimValue (.jstr (List.replicate 301 'a')) "" =
      .jstr ((List.replicate 301 'a').take (limOf "") ++ ("...".toList)) :=
  ((claim_C7_amended (.jstr (List.replicate 301 'a')) "").2.1
    (List.replicate 301 'a') rfl (by decide)).1

/-! ### Target-price guardrails (src/server.js:1110-1153)

Numeric fields that arrive from JSON are modelled as `JsField` so that
the JS `Number(...)` coercion inside `toFloat` is visible: `undefined`
coerces to `NaN` (→ null), but an explicit JSON `null` coerces to `0`.
String-valued numerics are outside the model. -/

/-- A possibly-absent JSON field holding a number. -/
inductive JsField where
  | missing
  | null
  | nonFinite
  | num (q : ℚ)
deriving Repr

/-- `toFloat(val)` from src/server.js:792-795: `Number` coercion then a
finiteness check. `Number(undefined)` and non-finite numbers give `NaN`
(→ null); `Number(null) = 0`. -/
def toFloat : JsField → Option ℚ
  | .missing => none
  | .null => some 0
  | .nonFinite => none
  | .num q => some q

/-- JS `String.prototype.toLowerCase` restricted to the characters the
claims exercise. -/
def jsToLower (s : String) : String := s.map Char.toLower

/-- Default of `WEAK_SIGNAL_TARGET_CAP` (src/server.js:117). -/
def WEAK_SIGNAL_TARGET_CAP : ℚ := 5/4

/-- Default of `WEAK_SIGNAL_TARGET_FLOOR` (src/server.js:118). -/
def WEAK_SIGNAL_TARGET_FLOOR : ℚ := 4/5

/-- Default of `LLM_TARGET_MAX_MULTIPLIER` (src/server.js:119). -/
def LLM_TARGET_MAX_MULTIPLIER : ℚ := 9/5

/-- Default of `LLM_TARGET_MIN_MULTIPLIER` (src/server.js:120). -/
def LLM_TARGET_MIN_MULTIPLIER : ℚ := 3/5

/-- Default of `MOMENTUM_SEVERE_THRESHOLD` (src/server.js:116). -/
def MOMENTUM_SEVERE_THRESHOLD : ℚ := 20

/-- `analysis.action` as touched by the guardrail pass. -/
structure GuardAction where
  target_price : JsField
  confidence : Option String
  guardrail_note : Option String
  rationale : Option String
deriving Repr

/-- The `analysis` argument: only `action` is read or written. -/
structure GuardAnalysis where
  action : Option GuardAction
deriving Repr

/-- The `priceMeta` argument: only `value` is read. -/
structure GuardPriceMeta where
  value : JsField
deriving Repr

/-- The flags produced by `deriveGuardrails`. -/
structure GuardrailFlags where
  severe_momentum : Bool
  selling_pressure : Bool
deriving Repr

/-- `Number(adjusted.toFixed(2))` (src/server.js:1147) modelled as
round-half-up at two decimals; the claims only use that the result is
within 1/100 of the input. -/
def jsRound2 (q : ℚ) : ℚ := ((⌊q * 100 + 1/2⌋ : ℤ) : ℚ) / 100

/-- `appendRationale(text, note)` from src/server.js:1122-1125, for the
non-empty constant note used by the guardrail pass. -/
def appendRationale (text : Option String) (note : String) : String :=
  match text with
  | some t => if t.isEmpty then note else t ++ " " ++ note
  | none => note

/-- Guardrail note for weak signals (src/server.js:1149). -/
def noteWeak : String := "動能或籌碼偏弱，系統已限縮目標價。"

/-- Guardrail note for low confidence (src/server.js:1150). -/
def noteConf : String := "信心不足，系統已限縮目標價。"

/-- Rationale suffix appended when clamped (src/server.js:1151). -/
def guardNotice : String := "（目標價已依風控自動調整）"

/-- Lines 1137-1145 of src/server.js: the two sequential clamp steps of
`applyTargetPriceGuardrails` over the already-computed caps. Returns
`(adjusted, clamped)`. The truthiness guards `maxCap &&` / `minCap &&`
are the `≠ 0` tests (a rational cap is never `NaN`). -/
def seqClamp (target minCap maxCap : ℚ) (confidence : String) : ℚ × Bool :=
  let c1 : Bool := decide (maxCap ≠ 0) && decide (maxCap < target)
                    && decide (confidence ≠ "high")
  let adj1 := if c1 then maxCap else target
  let c2 : Bool := decide (minCap ≠ 0) && decide (adj1 < minCap)
                    && decide (confidence ≠ "high")
  (if c2 then minCap else adj1, c1 || c2)

/-- Lines 1134-1135 of src/server.js: cap selection by the weak-signal
flag, then the sequential clamp. -/
def guardAdjust (current target : ℚ) (confidence : String) (weakSignals : Bool) :
    ℚ × Bool :=
  seqClamp target
    (current * (if weakSignals then WEAK_SIGNAL_TARGET_FLOOR
                else LLM_TARGET_MIN_MULTIPLIER))
    (current * (if weakSignals then WEAK_SIGNAL_TARGET_CAP
                else LLM_TARGET_MAX_MULTIPLIER))
    confidence

/-- `applyTargetPriceGuardrails(analysis, priceMeta, guardrails)` from
src/server.js:1127-1153. The JS function mutates `analysis.action`;
here the (possibly updated) `analysis` is returned. -/
def applyTargetPriceGuardrails (analysis : Option GuardAnalysis)
    (priceMeta : Option GuardPriceMeta) (g : GuardrailFlags) : Option GuardAnalysis :=
  match analysis, priceMeta with
  | some a, some pm =>
    match a.action with
    | none => some a
    | some act =>
      match toFloat pm.value, toFloat act.target_price with
      | some current, some target =>
        let confidence := jsToLower (act.confidence.getD "")
        let weakSignals := g.severe_momentum || g.selling_pressure
        let r := guardAdjust current target confidence weakSignals
        if r.2 then
          some { action := some { act with
            target_price := .num (jsRound2 r.1),
            guardrail_note := some (if weakSignals then noteWeak else noteConf),
            rationale := some (appendRationale act.rationale guardNotice) } }
        else some a
      | _, _ => some a
  | _, _ => analysis

/-- Concrete guardrail action used by the C1 witness. -/
def actW : GuardAction :=
  { target_price := .num 500, confidence := some ("medium"),
    guardrail_note := none, rationale := none }

/-- Concrete price meta used by the C1 witness. -/
def pmW : GuardPriceMeta := { value := .num 100 }

/-- Concrete guardrail flags used by the C1 witness. -/
def gW : GuardrailFlags := { severe_momentum := true, selling_pressure := false }

lemma jsRound2_close (q : ℚ) : q - 1/100 ≤ jsRound2 q ∧ jsRound2 q ≤ q + 1/100 := by
  unfold jsRound2
  have h1 : (⌊q * 100 + 1/2⌋ : ℚ) ≤ q * 100 + 1/2 := Int.floor_le _
  have h2 : q * 100 + 1/2 - 1 < (⌊q * 100 + 1/2⌋ : ℚ) := Int.sub_one_lt_floor _
  constructor <;> [linarith; linarith]

lemma seqClamp_high (target mn mx : ℚ) (confidence : String)
    (h : confidence = "high") : seqClamp target mn mx confidence = (target, false) := by
  subst h
  simp [seqClamp]

lemma seqClamp_spec (target mn mx : ℚ) (confidence : String)
    (hconf : confidence ≠ "high") (hmn : mn ≠ 0) (hmx : mx ≠ 0) (hle : mn ≤ mx) :
    (mn ≤ (seqClamp target mn mx confidence).1
      ∧ (seqClamp target mn mx confidence).1 ≤ mx)
    ∧ ((seqClamp target mn mx confidence).2 = false →
        (seqClamp target mn mx confidence).1 = target) := by
  have d3 : decide (confidence ≠ "high") = true := by simp [hconf]
  have dmx : decide (mx ≠ 0) = true := by simp [hmx]
  have dmn : decide (mn ≠ 0) = true := by simp [hmn]
  simp only [seqClamp, d3, dmx, dmn, Bool.and_true, Bool.true_and]
  by_cases h1 : mx < target
  · have hnlt : ¬ mx < mn := not_lt.mpr hle
    simp [h1, hnlt, hle]
  · by_cases h2 : target < mn
    · simp [h1, h2, hle]
    · simp [h1, h2]
      exact ⟨not_lt.mp h2, not_lt.mp h1⟩

/-- C1 counterexample: with a finite current price of `0` (which the
code reaches, e.g. `toFloat` coerces a null `price_meta.value` to `0`),
a target of `5`, medium confidence and no weak-signal flags, the
guardrail pass leaves the target at `5`, which does not lie in
`[0.6·cur, 1.8·cur] = [0, 0]` even allowing for rounding: the claim as
stated fails for non-positive current prices. -/
theorem claim_C1_counterexample :
    applyTargetPriceGuardrails
      (some { action := some { target_price := .num 5, confidence := some ("medium"),
                               guardrail_note := none, rationale := none } })
      (some { value := .num 0 })
      { severe_momentum := false, selling_pressure := false }
      = some { action := some { target_price := .num 5, confidence := some ("medium"),
                                guardrail_note := none, rationale := none } }
    ∧ ¬ ((5:ℚ) ≤ 0 * LLM_TARGET_MAX_MULTIPLIER + 1/100) := by
  constructor
  · have hz : guardAdjust 0 5 (jsToLower ("medium")) false = (5, false) := by
      norm_num [guardAdjust, seqClamp, WEAK_SIGNAL_TARGET_CAP, WEAK_SIGNAL_TARGET_FLOOR,
        LLM_TARGET_MAX_MULTIPLIER, LLM_TARGET_MIN_MULTIPLIER]
    simp [applyTargetPriceGuardrails, toFloat, hz]
  · norm_num [LLM_TARGET_MAX_MULTIPLIER]

/-- C1 (amended): restricted to a positive finite current price (and
with the confidence compared case-insensitively, as the code lowercases
it), the original claim holds: with a weak-signal flag and non-high
confidence the final target lies within `[0.8·cur, 1.25·cur]` up to
1/100 of rounding slack; with no flag and non-high confidence within
`[0.6·cur, 1.8·cur]`; high confidence is never modified; and a clamped
action carries the guardrail note and the appended rationale notice. -/
theorem claim_C1_amended (act : GuardAction) (pm : GuardPriceMeta) (g : GuardrailFlags)
    (cur tgt : ℚ)
    (hcur : toFloat pm.value = some cur)
    (htgt : toFloat act.target_price = some tgt)
    (hpos : 0 < cur) :
    ∃ res : GuardAction,
      applyTargetPriceGuardrails (some { action := some act }) (some pm) g
        = some { action := some res }
      ∧ (jsToLower (act.confidence.getD "") = "high" → res = act)
      ∧ (jsToLower (act.confidence.getD "") ≠ "high" →
          ((g.severe_momentum || g.selling_pressure) = true →
            ∀ q, toFloat res.target_price = some q →
              cur * WEAK_SIGNAL_TARGET_FLOOR - 1/100 ≤ q
              ∧ q ≤ cur * WEAK_SIGNAL_TARGET_CAP + 1/100)
          ∧ ((g.severe_momentum || g.selling_pressure) = false →
            ∀ q, toFloat res.target_price = some q →
              cur * LLM_TARGET_MIN_MULTIPLIER - 1/100 ≤ q
              ∧ q ≤ cur * LLM_TARGET_MAX_MULTIPLIER + 1/100))
      ∧ (res ≠ act →
          res.guardrail_note = some (if (g.severe_momentum || g.selling_pressure)
            then noteWeak else noteConf)
          ∧ res.rationale = some (appendRationale act.rationale guardNotice)) := by
  set conf := jsToLower (act.confidence.getD "") with hcdef
  set w := g.severe_momentum || g.selling_pressure with hwdef
  set mn := cur * (if w then WEAK_SIGNAL_TARGET_FLOOR else LLM_TARGET_MIN_MULTIPLIER)
    with hmndef
  set mx := cur * (if w then WEAK_SIGNAL_TARGET_CAP else LLM_TARGET_MAX_MULTIPLIER)
    with hmxdef
  have hunf : applyTargetPriceGuardrails (some { action := some act }) (some pm) g
      = (if (seqClamp tgt mn mx conf).2 then
          some { action := some { act with
            target_price := .num (jsRound2 (seqClamp tgt mn mx conf).1),
            guardrail_note := some (if w then noteWeak else noteConf),
            rationale := some (appendRationale act.rationale guardNotice) } }
        else some { action := some act }) := by
    simp only [applyTargetPriceGuardrails, hcur, htgt, guardAdjust]
  by_cases hhigh : conf = "high"
  · have hga := seqClamp_high tgt mn mx conf hhigh
    refine ⟨act, ?_, fun _ => rfl, fun hne => absurd hhigh hne, fun hne => absurd rfl hne⟩
    rw [hunf, hga]
    simp
  · have hfl : (0:ℚ) < (if w then WEAK_SIGNAL_TARGET_FLOOR
        else LLM_TARGET_MIN_MULTIPLIER) := by
      cases w <;>
        norm_num [WEAK_SIGNAL_TARGET_FLOOR, LLM_TARGET_MIN_MULTIPLIER]
    have hcp : (0:ℚ) < (if w then WEAK_SIGNAL_TARGET_CAP
        else LLM_TARGET_MAX_MULTIPLIER) := by
      cases w <;>
        norm_num [WEAK_SIGNAL_TARGET_CAP, LLM_TARGET_MAX_MULTIPLIER]
    have hflcp : (if w then WEAK_SIGNAL_TARGET_FLOOR else LLM_TARGET_MIN_MULTIPLIER)
        ≤ (if w then WEAK_SIGNAL_TARGET_CAP else LLM_TARGET_MAX_MULTIPLIER) := by
      cases w <;>
        norm_num [WEAK_SIGNAL_TARGET_FLOOR, LLM_TARGET_MIN_MULTIPLIER,
          WEAK_SIGNAL_TARGET_CAP, LLM_TARGET_MAX_MULTIPLIER]
    have hmn0 : mn ≠ 0 := ne_of_gt (by rw [hmndef]; exact mul_pos hpos hfl)
    have hmx0 : mx ≠ 0 := ne_of_gt (by rw [hmxdef]; exact mul_pos hpos hcp)
    have hmnmx : mn ≤ mx := by
      rw [hmndef, hmxdef]
      exact mul_le_mul_of_nonneg_left hflcp (le_of_lt hpos)
    obtain ⟨⟨hlo, hhi⟩, hunc⟩ := seqClamp_spec tgt mn mx conf hhigh hmn0 hmx0 hmnmx
    obtain ⟨hr1, hr2⟩ := jsRound2_close (seqClamp tgt mn mx conf).1
    by_cases hcl : (seqClamp tgt mn mx conf).2
    · refine ⟨{ act with
          target_price := .num (jsRound2 (seqClamp tgt mn mx conf).1),
          guardrail_note := some (if w then noteWeak else noteConf),
          rationale := some (appendRationale act.rationale guardNotice) },
        ?_, fun hc => absurd hc hhigh, ?_, fun _ => ⟨rfl, rfl⟩⟩
      · rw [hunf, if_pos hcl]
      · intro _hne
        constructor
        · intro hwt q hq
          simp only [toFloat] at hq
          cases hq
          rw [hwt] at hmndef hmxdef
          simp only [if_true] at hmndef hmxdef
          constructor <;> linarith
        · intro hwf q hq
          simp only [toFloat] at hq
          cases hq
          rw [hwf] at hmndef hmxdef
          simp only [Bool.false_eq_true, if_false] at hmndef hmxdef
          constructor <;> linarith
    · have hadj := hunc (by simpa using hcl)
      refine ⟨act, ?_, fun _ => rfl, ?_, fun hne => absurd rfl hne⟩
      · rw [hunf, if_neg hcl]
      · intro _hne
        constructor
        · intro hwt q hq
          rw [htgt] at hq
          cases hq
          rw [hwt] at hmndef hmxdef
          simp only [if_true] at hmndef hmxdef
          constructor <;> linarith
        · intro hwf q hq
          rw [htgt] at hq
          cases hq
          rw [hwf] at hmndef hmxdef
          simp only [Bool.false_eq_true, if_false] at hmndef hmxdef
          constructor <;> linarith

/-- C1 amended witness: the amended theorem applied to a concrete
weak-flagged action with current price 100 and LLM target 500. -/
theorem claim_C1_amended_witness :
    ∃ res : GuardAction,
      applyTargetPriceGuardrails (some { action := some actW }) (some pmW) gW
        = some { action := some res }
      ∧ (jsToLower (actW.confidence.getD "") = "high" → res = actW)
      ∧ (jsToLower (actW.confidence.getD "") ≠ "high" →
          ((gW.severe_momentum || gW.selling_pressure) = true →
            ∀ q, toFloat res.target_price = some q →
              100 * WEAK_SIGNAL_TARGET_FLOOR - 1/100 ≤ q
              ∧ q ≤ 100 * WEAK_SIGNAL_TARGET_CAP + 1/100)
          ∧ ((gW.severe_momentum || gW.selling_pressure) = false →
            ∀ q, toFloat res.target_price = some q →
              100 * LLM_TARGET_MIN_MULTIPLIER - 1/100 ≤ q
              ∧ q ≤ 100 * LLM_TARGET_MAX_MULTIPLIER + 1/100))
      ∧ (res ≠ actW →
          res.guardrail_note = some (if (gW.severe_momentum || gW.selling_pressure)
            then noteWeak else noteConf)
          ∧ res.rationale = some (appendRationale actW.rationale guardNotice)) :=
  claim_C1_amended actW pmW gW 100 500 rfl rfl (by norm_num)

/-! ### Retry primitive (src/server.js:1237-1259) -/

/-- The shape of a thrown upstream error as probed by
`isRetryableError`: `err.response?.status`, `err.code`, `err.message`. -/
structure JsError where
  status : Option ℤ
  code : Option String
  message : Option String
deriving Repr

/-- The transport codes of src/server.js:1242. -/
def retryableCodes : List String :=
  ["ECONNRESET", "ETIMEDOUT", "ECONNABORTED", "ENETUNREACH", "EAI_AGAIN"]

/-- The regex test `/timeout|socket hang up|temporarily unavailable/i`
of src/server.js:1244. -/
def msgHasRetryablePattern (msg : String) : Bool :=
  let l := msg.toList.map Char.toLower
  hasSub ("timeout".toList) l
    || hasSub ("socket hang up".toList) l
    || hasSub ("temporarily unavailable".toList) l

/-- `isRetryableError(err)` from src/server.js:1237-1245. The
`status &&` truthiness guard is the `≠ 0` test on the integer status. -/
def isRetryableError : Option JsError → Bool
  | none => false
  | some e =>
      (match e.status with
       | some st => decide (st ≠ 0)
            && (decide (st = 408) || decide (st = 429) || decide (500 ≤ st))
       | none => false)
      || (match e.code with
          | some c => decide (c ∈ retryableCodes)
          | none => false)
      || msgHasRetryablePattern (e.message.getD "")

/-- Outcome of one task invocation: JS resolution or rejection. -/
inductive TaskOutcome (α : Type) where
  | ok (a : α)
  | err (e : JsError)
deriving Repr

/-- Observable trace of a `withRetries` run: the value returned or error
finally thrown, the number of task invocations, and the sleeps
performed (in order). -/
structure RetryTrace (α : Type) where
  outcome : TaskOutcome α
  calls : ℕ
  sleeps : List ℚ
deriving Repr

/-- The `for(let attempt=1; attempt<=Math.max(1, attempts); attempt++)`
loop of `withRetries` (src/server.js:1247-1259). `fuel` is the number of
iterations left; `lastE` is `lastErr` and is always set when the loop
exhausts (that needs a failed prior attempt). The task is modelled by
the outcome of its k-th invocation. -/
def retryLoop {α : Type} (task : ℕ → TaskOutcome α) (attempts : ℕ) (delay : ℚ) :
    ℕ → ℕ → Option JsError → RetryTrace α
  | _attempt, 0, lastE =>
      { outcome := .err (lastE.getD { status := none, code := none, message := none }),
        calls := 0, sleeps := [] }
  | attempt, fuel + 1, _lastE =>
      match task attempt with
      | .ok a => { outcome := .ok a, calls := 1, sleeps := [] }
      | .err e =>
          if attempt = attempts ∨ isRetryableError (some e) = false then
            { outcome := .err e, calls := 1, sleeps := [] }
          else
            let rest := retryLoop task attempts delay (attempt + 1) fuel (some e)
            { outcome := rest.outcome, calls := rest.calls + 1,
              sleeps := delay * attempt :: rest.sleeps }

/-- `withRetries(task, attempts, delayMs)` from src/server.js:1247-1259
as a trace of the run. -/
def withRetries {α : Type} (task : ℕ → TaskOutcome α) (attempts : ℕ) (delay : ℚ) :
    RetryTrace α :=
  retryLoop task attempts delay 1 (max 1 attempts) none

/-- Non-retryable error used by the C6 witness. -/
def errW : JsError := { status := some 404, code := none, message := none }

/-- Task used by the C6 witness: always rejects with `errW`. -/
def taskW : ℕ → TaskOutcome ℕ := fun _ => .err errW

lemma retryLoop_calls_le {α : Type} (task : ℕ → TaskOutcome α) (attempts : ℕ)
    (delay : ℚ) (fuel : ℕ) :
    ∀ (attempt : ℕ) (lastE : Option JsError),
      (retryLoop task attempts delay attempt fuel lastE).calls ≤ fuel := by
  induction fuel with
  | zero => intro attempt lastE; rw [retryLoop]
  | succ n ih =>
      intro attempt lastE
      rw [retryLoop]
      split
      · simp
      · next e _heq =>
          split
          · simp
          · show (retryLoop task attempts delay (attempt + 1) n (some e)).calls + 1
              ≤ n + 1
            have h := ih (attempt + 1) (some e)
            omega

lemma retryLoop_sleeps {α : Type} (task : ℕ → TaskOutcome α) (attempts : ℕ)
    (delay : ℚ) (fuel : ℕ) :
    ∀ (attempt : ℕ) (lastE : Option JsError) (j : ℕ) (x : ℚ),
      (retryLoop task attempts delay attempt fuel lastE).sleeps[j]? = some x →
      x = delay * (attempt + j) := by
  induction fuel with
  | zero =>
      intro attempt lastE j x hj
      rw [retryLoop] at hj
      simp at hj
  | succ n ih =>
      intro attempt lastE j x hj
      rw [retryLoop] at hj
      revert hj
      split
      · intro hj; simp at hj
      · next e _heq =>
          split
          · intro hj; simp at hj
          · show (delay * attempt
              :: (retryLoop task attempts delay (attempt + 1) n (some e)).sleeps)[j]?
              = some x → x = delay * (attempt + j)
            intro hj
            cases j with
            | zero =>
                simp at hj
                rw [← hj]
                push_cast
                ring
            | succ m =>
                simp only [List.getElem?_cons_succ] at hj
                rw [ih (attempt + 1) (some e) m x hj]
                push_cast
                ring

lemma retryLoop_nonretryable {α : Type} (task : ℕ → TaskOutcome α) (attempts : ℕ)
    (delay : ℚ) (fuel : ℕ) :
    ∀ (attempt : ℕ) (lastE : Option JsError) (k : ℕ) (e : JsError),
      task k = .err e → isRetryableError (some e) = false →
      attempt ≤ k →
      k < attempt + (retryLoop task attempts delay attempt fuel lastE).calls →
      (retryLoop task attempts delay attempt fuel lastE).calls = k - attempt + 1
      ∧ (retryLoop task attempts delay attempt fuel lastE).outcome = .err e := by
  induction fuel with
  | zero =>
      intro attempt lastE k e _hk _hr hle hlt
      rw [retryLoop] at hlt
      simp at hlt
      omega
  | succ n ih =>
      intro attempt lastE k e hk hr hle hlt
      rw [retryLoop] at hlt ⊢
      revert hlt
      split
      · next a heq =>
          intro hlt
          simp at hlt
          have hka : k = attempt := by omega
          rw [hka, heq] at hk
          exact absurd hk (by simp)
      · next e0 heq =>
          split
          · next hstop =>
              intro hlt
              simp at hlt
              have hka : k = attempt := by omega
              subst hka
              rw [heq] at hk
              cases hk
              simp
          · next hstop =>
              show k < attempt + ((retryLoop task attempts delay (attempt + 1) n
                  (some e0)).calls + 1) →
                (retryLoop task attempts delay (attempt + 1) n (some e0)).calls + 1
                  = k - attempt + 1
                ∧ (retryLoop task attempts delay (attempt + 1) n (some e0)).outcome
                  = .err e
              intro hlt
              have hne : k ≠ attempt := by
                intro hka
                subst hka
                rw [heq] at hk
                cases hk
                rw [hr] at hstop
                exact hstop (Or.inr rfl)
              have hle2 : attempt + 1 ≤ k := by omega
              have hlt2 : k < (attempt + 1) + (retryLoop task attempts delay
                  (attempt + 1) n (some e0)).calls := by omega
              obtain ⟨hc, ho⟩ := ih (attempt + 1) (some e0) k e hk hr hle2 hlt2
              exact ⟨by omega, ho⟩

lemma isRetryableError_some_iff (e : JsError) :
    isRetryableError (some e) = true ↔
      ((∃ st, e.status = some st ∧ (st = 408 ∨ st = 429 ∨ 500 ≤ st))
       ∨ (∃ c, e.code = some c ∧ c ∈ retryableCodes)
       ∨ msgHasRetryablePattern (e.message.getD "") = true) := by
  obtain ⟨status, code, message⟩ := e
  cases status with
  | none =>
      cases code with
      | none =>
          simp [isRetryableError]
      | some c =>
          simp only [isRetryableError, Bool.or_eq_true, decide_eq_true_eq]
          constructor
          · rintro ((h | h) | h)
            · simp at h
            · exact Or.inr (Or.inl ⟨c, rfl, h⟩)
            · exact Or.inr (Or.inr h)
          · rintro (⟨st, hst, _⟩ | ⟨c2, hc, hmem⟩ | h)
            · simp at hst
            · left; right
              cases hc
              exact hmem
            · right; exact h
  | some st =>
      cases code with
      | none =>
          simp only [isRetryableError, Bool.or_eq_true, Bool.and_eq_true,
            decide_eq_true_eq]
          constructor
          · rintro ((⟨_, hor⟩ | h) | h)
            · exact Or.inl ⟨st, rfl, by tauto⟩
            · simp at h
            · exact Or.inr (Or.inr h)
          · rintro (⟨st2, hst, hor⟩ | ⟨c, hc, _⟩ | h)
            · cases hst
              left; left
              exact ⟨by omega, by tauto⟩
            · simp at hc
            · right; exact h
      | some c =>
          simp only [isRetryableError, Bool.or_eq_true, Bool.and_eq_true,
            decide_eq_true_eq]
          constructor
          · rintro ((⟨_, hor⟩ | h) | h)
            · exact Or.inl ⟨st, rfl, by tauto⟩
            · exact Or.inr (Or.inl ⟨c, rfl, h⟩)
            · exact Or.inr (Or.inr h)
          · rintro (⟨st2, hst, hor⟩ | ⟨c2, hc, hmem⟩ | h)
            · cases hst
              left; left
              exact ⟨by omega, by tauto⟩
            · cases hc
              left; right
              exact hmem
            · right; exact h

/-- C6: `withRetries` invokes the task at most `max(1, attempts)` times;
an error is retryable exactly when its HTTP status is 408, 429 or ≥500,
its code is one of the transport codes, or its message matches the
timeout pattern case-insensitively; a non-retryable error at attempt `k`
ends the run at exactly `k` calls with that error rethrown; and the
`j`-th sleep (0-indexed; between attempts `j+1` and `j+2`) is
`delay × (j+1)` — linear, not exponential, backoff. -/
theorem claim_C6_withRetries {α : Type} (task : ℕ → TaskOutcome α)
    (attempts : ℕ) (delay : ℚ) :
    (withRetries task attempts delay).calls ≤ max 1 attempts
    ∧ (∀ e : JsError, isRetryableError (some e) = true ↔
        ((∃ st, e.status = some st ∧ (st = 408 ∨ st = 429 ∨ 500 ≤ st))
         ∨ (∃ c, e.code = some c ∧ c ∈ retryableCodes)
         ∨ msgHasRetryablePattern (e.message.getD "") = true))
    ∧ (∀ (k : ℕ) (e : JsError), task k = .err e →
        isRetryableError (some e) = false →
        1 ≤ k → k ≤ (withRetries task attempts delay).calls →
        (withRetries task attempts delay).calls = k
        ∧ (withRetries task attempts delay).outcome = .err e)
    ∧ (∀ (j : ℕ) (x : ℚ), (withRetries task attempts delay).sleeps[j]? = some x →
        x = delay * (j + 1)) := by
  have hw : withRetries task attempts delay
      = retryLoop task attempts delay 1 (max 1 attempts) none := rfl
  refine ⟨?_, isRetryableError_some_iff, ?_, ?_⟩
  · rw [hw]
    exact retryLoop_calls_le task attempts delay (max 1 attempts) 1 none
  · intro k e hk hr h1 h2
    rw [hw] at h2 ⊢
    have := retryLoop_nonretryable task attempts delay (max 1 attempts) 1 none k e
      hk hr h1 (by omega)
    exact ⟨by omega, this.2⟩
  · intro j x hj
    rw [hw] at hj
    have := retryLoop_sleeps task attempts delay (max 1 attempts) 1 none j x hj
    rw [this]
    push_cast
    ring

/-- C6 witness: a task that always fails with a non-retryable 404 is
invoked exactly once and the error is rethrown. -/
theorem claim_C6_witness :
    (withRetries taskW 3 2).calls = 1
    ∧ (withRetries taskW 3 2).outcome = .err errW :=
  (claim_C6_withRetries taskW 3 2).2.2.1 1 errW rfl rfl (le_refl 1) (by decide)

/-! ### Price-target stats (src/server.js:895-921) -/

/-- One window (`last_month` / `last_quarter` / `last_year`) of the
price-target summary, as read by `buildPriceTargetStats`. -/
structure PTWindow where
  avg : JsField
  count : JsField
deriving Repr

/-- The `summary` argument of `buildPriceTargetStats`. -/
structure PTSummaryIn where
  last_month : Option PTWindow
  last_quarter : Option PTWindow
  last_year : Option PTWindow
deriving Repr

/-- The record built by `buildPriceTargetStats`. -/
structure PTStats where
  month_avg : Option ℚ
  month_count : JsField
  quarter_avg : Option ℚ
  quarter_count : JsField
  year_avg : Option ℚ
  year_count : JsField
  recent_avg : Option ℚ
  confidence : String
deriving Repr

/-- Default of `PRICE_TARGET_SAMPLE_THRESHOLD` (src/server.js:114). -/
def PRICE_TARGET_SAMPLE_THRESHOLD : ℚ := 3

/-- `toFloat(summary.last_X?.avg)`: a missing window reads as
`undefined` (null after `toFloat`). -/
def windowAvg (w : Option PTWindow) : Option ℚ :=
  match w with
  | some x => toFloat x.avg
  | none => none

/-- `Number(summary.last_X?.count) || 0`: `NaN` (missing window or
field, non-finite) and `null` (0) all collapse to 0. -/
def windowCount (w : Option PTWindow) : ℚ :=
  match w with
  | some x => match x.count with
    | .num q => q
    | _ => 0
  | none => 0

/-- `summary.last_X?.count ?? null` as stored on the stats record. -/
def windowCountField (w : Option PTWindow) : JsField :=
  match w with
  | some x => match x.count with
    | .missing => .null
    | f => f
  | none => .null

/-- Does this window pass `hasSamples(count) && avg != null`
(src/server.js:904-910)? -/
def winOk (w : Option PTWindow) : Prop :=
  PRICE_TARGET_SAMPLE_THRESHOLD ≤ windowCount w ∧ (windowAvg w).isSome

instance (w : Option PTWindow) : Decidable (winOk w) := by
  unfold winOk
  infer_instance

/-- `buildPriceTargetStats(summary)` from src/server.js:895-921. -/
def buildPriceTargetStats (summary : Option PTSummaryIn) : Option PTStats :=
  match summary with
  | none => none
  | some sm =>
      let monthAvg := windowAvg sm.last_month
      let quarterAvg := windowAvg sm.last_quarter
      let yearAvg := windowAvg sm.last_year
      let recentSource : Option ℚ :=
        if winOk sm.last_month then monthAvg
        else if winOk sm.last_quarter then quarterAvg
        else if winOk sm.last_year then yearAvg
        else none
      some {
        month_avg := monthAvg,
        month_count := windowCountField sm.last_month,
        quarter_avg := quarterAvg,
        quarter_count := windowCountField sm.last_quarter,
        year_avg := yearAvg,
        year_count := windowCountField sm.last_year,
        recent_avg := recentSource,
        confidence := if recentSource.isSome then "high" else "low" }

/-- The confidence assignment in the words of the claim: scan month,
quarter, year in order for the first window whose publisher count meets
the threshold; `high` iff that window has a non-null average. -/
def claimSpec_ptConfidence (sm : PTSummaryIn) : String :=
  if PRICE_TARGET_SAMPLE_THRESHOLD ≤ windowCount sm.last_month then
    (if (windowAvg sm.last_month).isSome then "high" else "low")
  else if PRICE_TARGET_SAMPLE_THRESHOLD ≤ windowCount sm.last_quarter then
    (if (windowAvg sm.last_quarter).isSome then "high" else "low")
  else if PRICE_TARGET_SAMPLE_THRESHOLD ≤ windowCount sm.last_year then
    (if (windowAvg sm.last_year).isSome then "high" else "low")
  else "low"

/-- C8 counterexample input: the month window has 5 publishers but a
missing average; the quarter window has 5 publishers and average 10. -/
def smC : PTSummaryIn :=
  { last_month := some { avg := .missing, count := .num 5 },
    last_quarter := some { avg := .num 10, count := .num 5 },
    last_year := none }

/-- C8 witness input: a month window with 4 publishers and average 12. -/
def smW : PTSummaryIn :=
  { last_month := some { avg := .num 12, count := .num 4 },
    last_quarter := none,
    last_year := none }

/-- C8 counterexample: when the month window has enough publishers but a
null average, the claim says confidence is `low` (the most recent
window with enough publishers has a null average), but the code skips to
the quarter window and reports `high`. -/
theorem claim_C8_counterexample :
    (buildPriceTargetStats (some smC)).map (fun st => st.confidence) = some ("high")
    ∧ claimSpec_ptConfidence smC = "low" := by
  constructor
  · rfl
  · rfl

/-- C8 (amended): confidence is `high` iff some window, scanned in the
order month → quarter → year, has at least the sample threshold of
publishers AND a non-null average (a qualifying-count window with a
null average is skipped, not final); `recent_avg` is the first such
window's average when `high` and null when `low`. -/
theorem claim_C8_amended (sm : PTSummaryIn) :
    ∃ st, buildPriceTargetStats (some sm) = some st
    ∧ (st.confidence = "high" ↔
        (winOk sm.last_month ∨ winOk sm.last_quarter ∨ winOk sm.last_year))
    ∧ (st.confidence = "high" ∨ st.confidence = "low")
    ∧ (st.confidence = "low" → st.recent_avg = none)
    ∧ (winOk sm.last_month → st.recent_avg = windowAvg sm.last_month)
    ∧ (¬ winOk sm.last_month → winOk sm.last_quarter →
        st.recent_avg = windowAvg sm.last_quarter)
    ∧ (¬ winOk sm.last_month → ¬ winOk sm.last_quarter → winOk sm.last_year →
        st.recent_avg = windowAvg sm.last_year) := by
  refine ⟨_, rfl, ?_, ?_, ?_, ?_, ?_, ?_⟩
  · by_cases h1 : winOk sm.last_month
    · simp [h1]
      exact Option.isSome_iff_ne_none.mp h1.2
    · by_cases h2 : winOk sm.last_quarter
      · simp [h1, h2]
        exact Option.isSome_iff_ne_none.mp h2.2
      · by_cases h3 : winOk sm.last_year
        · simp [h1, h2, h3]
          exact Option.isSome_iff_ne_none.mp h3.2
        · simp [h1, h2, h3]
  · by_cases h1 : winOk sm.last_month
    · simp [h1]
      exact Or.inl (Option.isSome_iff_ne_none.mp h1.2)
    · by_cases h2 : winOk sm.last_quarter
      · simp [h1, h2]
        exact Or.inl (Option.isSome_iff_ne_none.mp h2.2)
      · by_cases h3 : winOk sm.last_year
        · simp [h1, h2, h3]
          exact Or.inl (Option.isSome_iff_ne_none.mp h3.2)
        · simp [h1, h2, h3]
  · by_cases h1 : winOk sm.last_month
    · simp [h1]
    · by_cases h2 : winOk sm.last_quarter
      · simp [h1, h2]
      · by_cases h3 : winOk sm.last_year
        · simp [h1, h2, h3]
        · simp [h1, h2, h3]
  · intro h1
    simp [h1]
  · intro h1 h2
    simp [h1, h2]
  · intro h1 h2 h3
    simp [h1, h2, h3]

/-- C8 amended witness: the amended theorem on a month window with 4
publishers and average 12 gives confidence `high`. -/
theorem claim_C8_amended_witness :
    ∃ st, buildPriceTargetStats (some smW) = some st ∧ st.confidence = "high" := by
  obtain ⟨st, h1, h2, _⟩ := claim_C8_amended smW
  exact ⟨st, h1, h2.mpr (Or.inl (by constructor <;> decide))⟩

/-! ### Institutional snapshot (src/server.js:703-790)

Only the parts of `summarizeInstitutionalRows` that determine the
returned `signal` (`net_shares` and its label) and the null-return guard
are modelled: the name aliases (which decide whether a row is dropped),
the `changeShares` aliases, and the summary-level
`numberOf13FsharesChange`. The position value/weight/shares/date
normalization, sorting, and the human-readable summary string feed only
`top_holders`, `as_of`, `summary` and `metrics`, which claim C3 does not
touch. -/

/-- A raw holder row with the alias fields read by the normalizer. -/
structure InstRow where
  investorname : Option String
  investorName : Option String
  holder : Option String
  investor : Option String
  change : JsField
  changeInShares : JsField
  changeShares : JsField
  change_shares : JsField
deriving Repr

/-- The summary object of a holders payload (only the field the signal
reads). -/
structure InstSummary where
  numberOf13FsharesChange : JsField
deriving Repr

/-- The payload: either a bare array of rows, or an object with
optional `holders` and `summary`. -/
inductive InstPayload where
  | arr (rows : List InstRow)
  | obj (holders : Option (List InstRow)) (summary : Option InstSummary)
deriving Repr

/-- A normalized row (the fields the signal depends on). -/
structure NormInstRow where
  name : String
  changeShares : ℚ
deriving Repr

/-- JS `a || b` for strings: first operand unless it is empty (falsy)
or absent. -/
def jsOrStr (o : Option String) (alt : String) : String :=
  match o with
  | some s => if s = "" then alt else s
  | none => alt

/-- `row.investorname || row.investorName || row.holder || row.investor
|| ''` (src/server.js:713). -/
def instRowName (r : InstRow) : String :=
  jsOrStr r.investorname (jsOrStr r.investorName (jsOrStr r.holder
    (jsOrStr r.investor "")))

/-- `a ?? b ?? c ?? d`: the first non-nullish field. When every field is
nullish the chain yields a nullish value, whose `Number` coercion (0 or
`NaN`) is anyway replaced by 0 downstream, so `.missing` stands for it. -/
def coalesce : List JsField → JsField
  | [] => .missing
  | f :: rest =>
      match f with
      | .missing => coalesce rest
      | .null => coalesce rest
      | x => x

/-- `Number(row.change ?? row.changeInShares ?? row.changeShares ??
row.change_shares)` with `Number.isFinite(...) ? ... : 0`
(src/server.js:718,726). -/
def instRowChange (r : InstRow) : ℚ :=
  match coalesce [r.change, r.changeInShares, r.changeShares, r.change_shares] with
  | .num q => q
  | _ => 0

/-- The row normalizer (src/server.js:711-733): rows without any truthy
name alias are dropped. -/
def normalizeInstRow (r : InstRow) : Option NormInstRow :=
  if instRowName r = "" then none
  else some { name := instRowName r, changeShares := instRowChange r }

/-- `Array.isArray(payload) ? payload : (Array.isArray(payload?.holders)
? payload.holders : [])` (src/server.js:704-706). -/
def instRows : InstPayload → List InstRow
  | .arr rs => rs
  | .obj (some hs) _ => hs
  | .obj none _ => []

/-- `!Array.isArray(payload) ? payload?.summary : null`
(src/server.js:707). -/
def instSummaryMeta : InstPayload → Option InstSummary
  | .arr _ => none
  | .obj _ sm => sm

/-- `normalized.reduce((sum,item)=> sum + (item.changeShares || 0), 0)`
(src/server.js:741). -/
def instRowSum (p : InstPayload) : ℚ :=
  (((instRows p).filterMap normalizeInstRow).map (fun r => r.changeShares)).sum

/-- The `signal` part of the snapshot built by
`summarizeInstitutionalRows`. -/
structure InstSnapshot where
  label : String
  net_shares : ℚ
deriving Repr

/-- `summarizeInstitutionalRows(payload)` from src/server.js:703-790,
restricted to the null guard and the `signal` fields. -/
def summarizeInstitutionalRows (payload : InstPayload) : Option InstSnapshot :=
  if (instRows payload).isEmpty ∧ (instSummaryMeta payload).isNone then none
  else
    let netShares := match instSummaryMeta payload with
      | some sm =>
          match toFloat sm.numberOf13FsharesChange with
          | some q => q
          | none => instRowSum payload
      | none => instRowSum payload
    some {
      label := if 0 < netShares then "加碼"
               else if netShares < 0 then "減碼" else "持平",
      net_shares := netShares }

/-- `net_shares` in the words of the claim: the summary-level
`numberOf13FsharesChange` when that is a finite number, otherwise the
row sum (so an explicit `null` is NOT a finite number and falls back to
the row sum). -/
def claimSpec_instNet (p : InstPayload) : ℚ :=
  match instSummaryMeta p with
  | some sm =>
      match sm.numberOf13FsharesChange with
      | .num q => q
      | _ => instRowSum p
  | none => instRowSum p

/-- C3 counterexample payload: one row with `change = 5` and a summary
whose `numberOf13FsharesChange` is an explicit JSON `null`. -/
def pC3 : InstPayload :=
  .obj (some [{ investorname := some ("A"), investorName := none, holder := none,
                investor := none, change := .num 5, changeInShares := .missing,
                changeShares := .missing, change_shares := .missing }])
       (some { numberOf13FsharesChange := .null })

/-- C3 witness payload: a bare array with one row of `change = 7`. -/
def pW3 : InstPayload :=
  .arr [{ investorname := some ("B"), investorName := none, holder := none,
          investor := none, change := .num 7, changeInShares := .missing,
          changeShares := .missing, change_shares := .missing }]

/-- C3 counterexample: with a summary-level `numberOf13FsharesChange`
that is an explicit `null` — not a finite number — the claim says
`net_shares` is the row sum (5), but `Number(null)` is `0`, which is
finite, so the code reports `net_shares = 0` and label `持平`. -/
theorem claim_C3_counterexample :
    (summarizeInstitutionalRows pC3).map (fun s => (s.net_shares, s.label))
      = some ((0 : ℚ), "持平")
    ∧ claimSpec_instNet pC3 = 5 := by
  constructor
  · rfl
  · simp [claimSpec_instNet, pC3, instSummaryMeta, instRowSum, instRows,
      normalizeInstRow, instRowName, instRowChange, jsOrStr, coalesce,
      List.filterMap_cons, List.filterMap_nil]

lemma instLabel_iff (n : ℚ) :
    ((if 0 < n then "加碼" else if n < 0 then "減碼" else "持平") = "加碼" ↔ 0 < n)
    ∧ ((if 0 < n then "加碼" else if n < 0 then "減碼" else "持平") = "減碼" ↔ n < 0)
    ∧ ((if 0 < n then "加碼" else if n < 0 then "減碼" else "持平") = "持平" ↔ n = 0) := by
  rcases lt_trichotomy 0 n with h | h | h
  · rw [if_pos h]
    refine ⟨by simp [h], ?_, ?_⟩
    · exact ⟨fun hh => absurd hh (by decide), fun hh => absurd hh (by linarith)⟩
    · exact ⟨fun hh => absurd hh (by decide), fun hh => absurd hh (by linarith)⟩
  · rw [if_neg (by linarith), if_neg (by linarith)]
    refine ⟨?_, ?_, ?_⟩
    · exact ⟨fun hh => absurd hh (by decide), fun hh => absurd hh (by linarith)⟩
    · exact ⟨fun hh => absurd hh (by decide), fun hh => absurd hh (by linarith)⟩
    · simp [h.symm]
  · rw [if_neg (by linarith), if_pos h]
    refine ⟨?_, by simp [h], ?_⟩
    · exact ⟨fun hh => absurd hh (by decide), fun hh => absurd hh (by linarith)⟩
    · exact ⟨fun hh => absurd hh (by decide), fun hh => absurd hh (by linarith)⟩

/-- C3 (amended): for every payload with a non-null snapshot,
`net_shares` equals `Number(numberOf13FsharesChange)` whenever that
coercion is finite — an explicit `null` coerces to 0 — and otherwise
the sum of the normalized rows' `changeShares` (missing values counted
as 0); the label is `加碼` iff `net_shares > 0`, `減碼` iff
`net_shares < 0`, and `持平` iff `net_shares = 0`. -/
theorem claim_C3_amended (p : InstPayload) :
    ∀ snap, summarizeInstitutionalRows p = some snap →
      (snap.net_shares = (match instSummaryMeta p with
        | some sm =>
            match toFloat sm.numberOf13FsharesChange with
            | some q => q
            | none => instRowSum p
        | none => instRowSum p))
      ∧ (snap.label = "加碼" ↔ 0 < snap.net_shares)
      ∧ (snap.label = "減碼" ↔ snap.net_shares < 0)
      ∧ (snap.label = "持平" ↔ snap.net_shares = 0) := by
  intro snap hsnap
  unfold summarizeInstitutionalRows at hsnap
  by_cases hguard : (instRows p).isEmpty ∧ (instSummaryMeta p).isNone
  · rw [if_pos hguard] at hsnap
    cases hsnap
  · rw [if_neg hguard] at hsnap
    cases hsnap
    have h := instLabel_iff (match instSummaryMeta p with
      | some sm =>
          match toFloat sm.numberOf13FsharesChange with
          | some q => q
          | none => instRowSum p
      | none => instRowSum p)
    exact ⟨rfl, h.1, h.2.1, h.2.2⟩

/-- C3 amended witness: a single-row array payload with `change = 7`
yields `net_shares = 7` and label `加碼`. -/
theorem claim_C3_amended_witness :
    ∃ snap, summarizeInstitutionalRows pW3 = some snap
      ∧ snap.net_shares = 7 ∧ snap.label = "加碼" := by
  have hcomp : summarizeInstitutionalRows pW3
      = some { label := "加碼", net_shares := 7 } := by
    simp [summarizeInstitutionalRows, pW3, instRows, instSummaryMeta, instRowSum,
      normalizeInstRow, instRowName, instRowChange, jsOrStr, coalesce,
      List.filterMap_cons, List.filterMap_nil]
  have h := claim_C3_amended pW3 { label := "加碼", net_shares := 7 } hcomp
  exact ⟨_, hcomp, rfl, rfl⟩

/-! ### Momentum metrics (src/unnamed/part_009:357-526)

`computeMomentumMetrics` minus its cache read/write, the FMP indicator
snapshots and the ETF reference: those populate `indicators.fmp` and
`etf` only and play no part in `trend` or `score`. -/

/-- One EOD bar as produced by the series fetchers (missing upstream
values are coerced to 0 by the adapters). -/
structure Bar where
  close : ℚ
  high : ℚ
  low : ℚ
  volume : ℚ
deriving Repr, DecidableEq

/-- Placeholder bar for safe indexing (never read on the paths used:
all indices are guarded by length checks). -/
def bar0 : Bar := { close := 0, high := 0, low := 0, volume := 0 }

/-- `percentChange(series, idx)` from src/unnamed/part_009:357-363. -/
def percentChange (series : List Bar) (idx : ℕ) : Option ℚ :=
  if series.length ≤ idx then none
  else match series[0]?, series[idx]? with
    | some current, some base =>
        if base.close = 0 then none else some (current.close / base.close - 1)
    | _, _ => none

/-- `simpleMovingAverage(series, period)` from
src/unnamed/part_009:365-369. -/
def simpleMovingAverage (series : List Bar) (period : ℕ) : Option ℚ :=
  if series.length < period then none
  else some (((series.take period).map (fun b => b.close)).sum / period)

/-- `calcRSI(series, period)` from src/unnamed/part_009:371-383. -/
def calcRSI (series : List Bar) (period : ℕ) : Option ℚ :=
  if series.length ≤ period then none
  else
    let diffs := (List.range period).map (fun i =>
      (series.getD i bar0).close - (series.getD (i + 1) bar0).close)
    let gains := (diffs.map (fun d => if 0 ≤ d then d else 0)).sum
    let losses := (diffs.map (fun d => if 0 ≤ d then 0 else -d)).sum
    let avgGain := gains / period
    let avgLoss := losses / period
    if avgLoss = 0 then some 100
    else some (100 - 100 / (1 + avgGain / avgLoss))

/-- `calcATR(series, period)` from src/unnamed/part_009:385-399
(`series[i+1] || current` never falls back here since the length guard
gives `i + 1 ≤ period < length`). -/
def calcATR (series : List Bar) (period : ℕ) : Option ℚ :=
  if series.length ≤ period then none
  else
    let trs := (List.range period).map (fun i =>
      let current := series.getD i bar0
      let prev := series.getD (i + 1) bar0
      max (current.high - current.low)
        (max (abs (current.high - prev.close)) (abs (current.low - prev.close))))
    some (trs.sum / trs.length)

/-- `avgVolume(series, period)` from src/unnamed/part_009:401-404. -/
def avgVolume (series : List Bar) (period : ℕ) : Option ℚ :=
  if series.length < period then none
  else some (((series.take period).map (fun b => b.volume)).sum / period)

/-- `clamp(val, min, max)` from src/unnamed/part_009:258-260. -/
def clamp (val mn mx : ℚ) : ℚ := max mn (min mx val)

/-- `Math.round` for the non-negative range the score lives in:
round half up. -/
def jsRound (q : ℚ) : ℤ := ⌊q + 1/2⌋

/-- `returns.m3!=null && returns.m3 > th` as a boolean. -/
def m3AboveB (m3 : Option ℚ) (th : ℚ) : Bool :=
  match m3 with
  | some r => decide (th < r)
  | none => false

/-- `returns.m3!=null && returns.m3 < th` as a boolean. -/
def m3BelowB (m3 : Option ℚ) (th : ℚ) : Bool :=
  match m3 with
  | some r => decide (r < th)
  | none => false

/-- The two sequential trend assignments of
src/unnamed/part_009:466-468: `強勢` needs both `above` flags truthy and
`m3 > 0.10`; `弱勢` (evaluated second, overriding) needs both flags
`=== false` and `m3 < −0.05`. -/
def momTrend (above50 above200 : Option Bool) (m3 : Option ℚ) : String :=
  let t1 := if above50 = some true ∧ above200 = some true
      ∧ m3AboveB m3 ((1:ℚ)/10) = true
    then "強勢" else "中性"
  if above50 = some false ∧ above200 = some false
      ∧ m3BelowB m3 (-((1:ℚ)/20)) = true
    then "弱勢" else t1

/-- The score accumulation of src/unnamed/part_009:470-478:
`Math.round(clamp(50 + Σ contributions, 0, 100))`. -/
def momScore (m3 m6 m12 rsi14 volumeRatio : Option ℚ)
    (above50 above200 : Option Bool) : ℤ :=
  jsRound (clamp (50
    + (match m3 with | some r => clamp (r * 200) (-20) 20 | none => 0)
    + (match m6 with | some r => clamp (r * 150) (-15) 15 | none => 0)
    + (match m12 with | some r => clamp (r * 100) (-10) 10 | none => 0)
    + (match rsi14 with | some r => clamp ((r - 50) / 2) (-10) 10 | none => 0)
    + (match volumeRatio with | some r => clamp ((r - 1) * 20) (-10) 10 | none => 0)
    + (if above50 = some true then 5 else if above50 = some false then -5 else 0)
    + (if above200 = some true then 5 else if above200 = some false then -5 else 0))
    0 100)

/-- The metrics record (the fields fed by the modelled computation;
`atr_pct`, `range_52w`, `indicators.fmp` and `etf` are derived side
data not referenced by claim C4). -/
structure MomMetrics where
  score : ℤ
  trend : String
  m3 : Option ℚ
  m6 : Option ℚ
  m12 : Option ℚ
  price : ℚ
  ma20 : Option ℚ
  ma50 : Option ℚ
  ma200 : Option ℚ
  rsi14 : Option ℚ
  atr14 : Option ℚ
  volume_ratio : Option ℚ
  above50 : Option Bool
  above200 : Option Bool
deriving Repr, DecidableEq

/-- The pure core of `computeMomentumMetrics(symbol, baselineDate)`
(src/unnamed/part_009:420-526) on an already-sliced series. The length
guard (≥ 60) makes `sliced[0]` total, modelled with `getD`. -/
def computeMomentumCore (sliced : List Bar) : Option MomMetrics :=
  if sliced.length < 60 then none
  else
    let latest := sliced.getD 0 bar0
    let m3 := percentChange sliced 63
    let m6 := percentChange sliced 126
    let m12 := percentChange sliced 252
    let ma20 := simpleMovingAverage sliced 20
    let ma50 := simpleMovingAverage sliced 50
    let ma200 := simpleMovingAverage sliced 200
    let rsi14 := calcRSI sliced 14
    let atr14 := calcATR sliced 14
    let vol5 := avgVolume sliced 5
    let vol30 := avgVolume sliced 30
    let volumeRatio := match vol5, vol30 with
      | some a, some b => if a ≠ 0 ∧ b ≠ 0 then some (a / b) else none
      | _, _ => none
    let above50 := ma50.map (fun v => decide (v < latest.close))
    let above200 := ma200.map (fun v => decide (v < latest.close))
    some {
      score := momScore m3 m6 m12 rsi14 volumeRatio above50 above200,
      trend := momTrend above50 above200 m3,
      m3 := m3, m6 := m6, m12 := m12,
      price := latest.close,
      ma20 := ma20, ma50 := ma50, ma200 := ma200,
      rsi14 := rsi14, atr14 := atr14,
      volume_ratio := volumeRatio,
      above50 := above50, above200 := above200 }

/-- Constant bar at close 100. -/
def bar100 : Bar := { close := 100, high := 100, low := 100, volume := 0 }

/-- Bar at close 150 (counterexample index 63). -/
def bar150 : Bar := { close := 150, high := 150, low := 150, volume := 0 }

/-- Bar at close 50 (counterexample index 64). -/
def bar50 : Bar := { close := 50, high := 50, low := 50, volume := 0 }

/-- C4 counterexample series: 200 bars whose latest close, SMA50 and
SMA200 all equal 100 exactly, with a −1/3 three-month return. -/
def series200 : List Bar :=
  List.replicate 63 bar100 ++ [bar150, bar50] ++ List.replicate 135 bar100

/-- C4 witness series: 60 constant bars. -/
def series60 : List Bar := List.replicate 60 bar100

/-- The metrics record computed for `series200`. -/
def mC4 : MomMetrics :=
  { score := 30, trend := "弱勢", m3 := some (-(1/3)), m6 := some 0, m12 := none,
    price := 100, ma20 := some 100, ma50 := some 100, ma200 := some 100,
    rsi14 := some 100, atr14 := some 0, volume_ratio := none,
    above50 := some false, above200 := some false }

lemma series200_length : series200.length = 200 := by
  simp [series200]

lemma series200_getElem_lt63 (i : ℕ) (h : i < 63) : series200[i]? = some bar100 := by
  unfold series200
  rw [List.getElem?_append_left (by simp; omega),
    List.getElem?_append_left (by simp; omega)]
  exact List.getElem?_replicate_of_lt h

lemma series200_getElem_63 : series200[63]? = some bar150 := by
  unfold series200
  rw [List.getElem?_append_left (by simp),
    List.getElem?_append_right (by simp)]
  simp

lemma series200_getElem_126 : series200[126]? = some bar100 := by
  unfold series200
  rw [List.getElem?_append_right (by simp)]
  simp

lemma series200_take (n : ℕ) (h : n ≤ 63) :
    series200.take n = List.replicate n bar100 := by
  unfold series200
  rw [List.take_append_of_le_length (by simp; omega),
    List.take_append_of_le_length (by simp; omega), List.take_replicate]
  congr 1
  omega

lemma series200_ma (n : ℕ) (hn : n ≤ 63) (h0 : 0 < n) :
    simpleMovingAverage series200 n = some 100 := by
  unfold simpleMovingAverage
  rw [if_neg (by rw [series200_length]; omega)]
  rw [series200_take n hn, List.map_replicate, List.sum_replicate, bar100]
  congr 1
  field_simp

lemma series200_ma200 : simpleMovingAverage series200 200 = some 100 := by
  unfold simpleMovingAverage
  rw [if_neg (by rw [series200_length]; omega)]
  rw [List.take_of_length_le (by rw [series200_length])]
  unfold series200
  simp only [List.map_append, List.map_replicate, List.sum_append, List.sum_replicate,
    List.map_cons, List.map_nil, List.sum_cons, List.sum_nil]
  congr 1
  norm_num [bar100, bar150, bar50]

lemma series200_m3 : percentChange series200 63 = some (-(1/3)) := by
  unfold percentChange
  rw [if_neg (by rw [series200_length]; omega)]
  rw [series200_getElem_lt63 0 (by omega), series200_getElem_63]
  show (if bar150.close = 0 then none
    else some (bar100.close / bar150.close - 1)) = some (-(1/3))
  rw [if_neg (by norm_num [bar150])]
  norm_num [bar100, bar150]

lemma series200_m6 : percentChange series200 126 = some 0 := by
  unfold percentChange
  rw [if_neg (by rw [series200_length]; omega)]
  rw [series200_getElem_lt63 0 (by omega), series200_getElem_126]
  show (if bar100.close = 0 then none
    else some (bar100.close / bar100.close - 1)) = some 0
  rw [if_neg (by norm_num [bar100])]
  norm_num [bar100]

lemma series200_m12 : percentChange series200 252 = none := by
  unfold percentChange
  rw [if_pos (by rw [series200_length]; omega)]

lemma series200_getD_close (i : ℕ) (h : i < 63) :
    (series200.getD i bar0).close = 100 := by
  rw [List.getD_eq_getElem?_getD, series200_getElem_lt63 i h]
  rfl

lemma series200_rsi : calcRSI series200 14 = some 100 := by
  unfold calcRSI
  rw [if_neg (by rw [series200_length]; omega)]
  have hdif : (List.range 14).map (fun i =>
      (series200.getD i bar0).close - (series200.getD (i + 1) bar0).close)
      = List.replicate 14 0 := by
    rw [List.eq_replicate_iff]
    constructor
    · simp
    · intro b hb
      obtain ⟨i, hi, rfl⟩ := List.mem_map.mp hb
      have hi14 : i < 14 := List.mem_range.mp hi
      rw [series200_getD_close i (by omega), series200_getD_close (i + 1) (by omega)]
      norm_num
  rw [hdif]
  simp [List.map_replicate, List.sum_replicate]

lemma series200_atr : calcATR series200 14 = some 0 := by
  unfold calcATR
  rw [if_neg (by rw [series200_length]; omega)]
  have htr : (List.range 14).map (fun i =>
      let current := series200.getD i bar0
      let prev := series200.getD (i + 1) bar0
      max (current.high - current.low)
        (max (abs (current.high - prev.close)) (abs (current.low - prev.close))))
      = List.replicate 14 0 := by
    rw [List.eq_replicate_iff]
    constructor
    · simp
    · intro b hb
      obtain ⟨i, hi, rfl⟩ := List.mem_map.mp hb
      have hi14 : i < 14 := List.mem_range.mp hi
      have hcur : series200.getD i bar0 = bar100 := by
        rw [List.getD_eq_getElem?_getD, series200_getElem_lt63 i (by omega)]
        rfl
      have hprev : series200.getD (i + 1) bar0 = bar100 := by
        rw [List.getD_eq_getElem?_getD, series200_getElem_lt63 (i + 1) (by omega)]
        rfl
      rw [hcur, hprev]
      norm_num [bar100]
  rw [htr]
  simp [List.sum_replicate]

lemma series200_vol (n : ℕ) (hn : n ≤ 63) (h0 : 0 < n) :
    avgVolume series200 n = some 0 := by
  unfold avgVolume
  rw [if_neg (by rw [series200_length]; omega)]
  rw [series200_take n hn, List.map_replicate, List.sum_replicate, bar100]
  norm_num

lemma momTrend_weak_concrete :
    momTrend (some false) (some false) (some (-(1/3))) = "弱勢" := by
  unfold momTrend
  rw [if_pos ⟨rfl, rfl, decide_eq_true (by norm_num)⟩]

lemma momScore_concrete :
    momScore (some (-(1/3))) (some 0) none (some 100) none
      (some false) (some false) = 30 := by
  unfold momScore
  have h1 : clamp ((-(1/3)) * 200) (-20) 20 = -20 := by
    norm_num [clamp, min_def, max_def]
  have h2 : clamp ((0:ℚ) * 150) (-15) 15 = 0 := by
    norm_num [clamp, min_def, max_def]
  have h3 : clamp (((100:ℚ) - 50) / 2) (-10) 10 = 10 := by
    norm_num [clamp, min_def, max_def]
  simp only [h1, h2, h3]
  norm_num [clamp, jsRound, min_def, max_def]

/-- `computeMomentumCore` on the 200-bar counterexample series. -/
lemma momCore_series200 : computeMomentumCore series200 = some mC4 := by
  have hdec : (decide ((100:ℚ) < 100)) = false := decide_eq_false (by norm_num)
  have hd0 : series200.getD 0 bar0 = bar100 := by
    rw [List.getD_eq_getElem?_getD, series200_getElem_lt63 0 (by omega)]
    rfl
  unfold computeMomentumCore
  rw [if_neg (by rw [series200_length]; omega)]
  simp only [hd0, series200_m3, series200_m6, series200_m12,
    series200_ma 20 (by omega) (by omega), series200_ma 50 (by omega) (by omega),
    series200_ma200, series200_rsi, series200_atr,
    series200_vol 5 (by omega) (by omega), series200_vol 30 (by omega) (by omega),
    Option.map_some, Option.map_some', bar100, hdec]
  rw [if_neg (by norm_num), momTrend_weak_concrete, momScore_concrete]
  rfl

/-- C4 counterexample: on `series200` the latest close equals both
SMA50 and SMA200 exactly (100) while the three-month return is −1/3; the
code assigns trend `弱勢` (it tests `above50 === false`, i.e.
`close ≤ SMA50`), but the claim's condition `close < SMA50` is false, so
the claim's `弱勢`-iff fails. -/
theorem claim_C4_counterexample :
    (computeMomentumCore series200).map (fun m => m.trend) = some ("弱勢")
    ∧ (computeMomentumCore series200).map (fun m => m.ma50) = some (some 100)
    ∧ (computeMomentumCore series200).map (fun m => m.price) = some (100)
    ∧ ¬ ((100:ℚ) < 100) := by
  rw [momCore_series200]
  exact ⟨rfl, rfl, rfl, by norm_num⟩

lemma mapLtTrue_iff (o : Option ℚ) (c : ℚ) :
    o.map (fun v => decide (v < c)) = some true ↔ ∃ a, o = some a ∧ a < c := by
  cases o <;> simp

lemma mapLtFalse_iff (o : Option ℚ) (c : ℚ) :
    o.map (fun v => decide (v < c)) = some false ↔ ∃ a, o = some a ∧ c ≤ a := by
  cases o <;> simp [not_lt]

lemma m3AboveB_iff (m3 : Option ℚ) (th : ℚ) :
    m3AboveB m3 th = true ↔ ∃ r, m3 = some r ∧ th < r := by
  cases m3 <;> simp [m3AboveB]

lemma m3BelowB_iff (m3 : Option ℚ) (th : ℚ) :
    m3BelowB m3 th = true ↔ ∃ r, m3 = some r ∧ r < th := by
  cases m3 <;> simp [m3BelowB]

lemma momTrend_strong_iff (a b : Option Bool) (m3 : Option ℚ) :
    momTrend a b m3 = "強勢" ↔ (a = some true ∧ b = some true
      ∧ m3AboveB m3 ((1:ℚ)/10) = true) := by
  unfold momTrend
  by_cases hw : a = some false ∧ b = some false ∧ m3BelowB m3 (-((1:ℚ)/20)) = true
  · rw [if_pos hw]
    constructor
    · intro hh; exact absurd hh (by decide)
    · rintro ⟨ha, _, _⟩
      rw [hw.1] at ha
      exact absurd ha (by simp)
  · rw [if_neg hw]
    by_cases hs : a = some true ∧ b = some true ∧ m3AboveB m3 ((1:ℚ)/10) = true
    · rw [if_pos hs]
      exact iff_of_true rfl hs
    · rw [if_neg hs]
      constructor
      · intro hh; exact absurd hh (by decide)
      · intro hh; exact absurd hh hs

lemma momTrend_weak_iff (a b : Option Bool) (m3 : Option ℚ) :
    momTrend a b m3 = "弱勢" ↔ (a = some false ∧ b = some false
      ∧ m3BelowB m3 (-((1:ℚ)/20)) = true) := by
  unfold momTrend
  by_cases hw : a = some false ∧ b = some false ∧ m3BelowB m3 (-((1:ℚ)/20)) = true
  · rw [if_pos hw]
    exact iff_of_true rfl hw
  · rw [if_neg hw]
    by_cases hs : a = some true ∧ b = some true ∧ m3AboveB m3 ((1:ℚ)/10) = true
    · rw [if_pos hs]
      constructor
      · intro hh; exact absurd hh (by decide)
      · intro hh; exact absurd hh hw
    · rw [if_neg hs]
      constructor
      · intro hh; exact absurd hh (by decide)
      · intro hh; exact absurd hh hw

lemma momTrend_cases (a b : Option Bool) (m3 : Option ℚ) :
    momTrend a b m3 = "強勢" ∨ momTrend a b m3 = "中性"
      ∨ momTrend a b m3 = "弱勢" := by
  unfold momTrend
  split_ifs <;> simp

lemma jsRound_clamp_bounds (s : ℚ) :
    0 ≤ jsRound (clamp s 0 100) ∧ jsRound (clamp s 0 100) ≤ 100 := by
  unfold jsRound clamp
  have h1 : (0:ℚ) ≤ max 0 (min 100 s) := le_max_left _ _
  have h2 : max 0 (min 100 s) ≤ 100 := max_le (by norm_num) (min_le_left _ _)
  constructor
  · exact Int.le_floor.mpr (by push_cast; linarith)
  · have hf : (↑⌊max 0 (min 100 s) + 1/2⌋ : ℚ) ≤ max 0 (min 100 s) + 1/2 :=
      Int.floor_le _
    have hlt : (↑⌊max 0 (min 100 s) + 1/2⌋ : ℚ) < ((101 : ℤ) : ℚ) := by
      push_cast
      linarith
    have := Int.cast_lt.mp hlt
    omega

/-- C4 (amended): for every price series with non-null metrics, trend is
`強勢` iff close > SMA50 and close > SMA200 and 3-month return > 0.10;
trend is `弱勢` iff close ≤ SMA50 and close ≤ SMA200 (the code tests
`above === false`, i.e. not-above rather than strictly-below) and
3-month return < −0.05; otherwise `中性`; score equals
`round(clamp(50 + Σ contributions, 0, 100))` with the claim's
contributions (null inputs contributing 0); hence score ∈ [0, 100]. -/
theorem claim_C4_amended (series : List Bar) (m : MomMetrics)
    (h : computeMomentumCore series = some m) :
    (m.trend = "強勢" ↔ (∃ a, m.ma50 = some a ∧ a < m.price)
        ∧ (∃ b, m.ma200 = some b ∧ b < m.price)
        ∧ (∃ r, m.m3 = some r ∧ (1:ℚ)/10 < r))
    ∧ (m.trend = "弱勢" ↔ (∃ a, m.ma50 = some a ∧ m.price ≤ a)
        ∧ (∃ b, m.ma200 = some b ∧ m.price ≤ b)
        ∧ (∃ r, m.m3 = some r ∧ r < -((1:ℚ)/20)))
    ∧ (m.trend = "強勢" ∨ m.trend = "中性" ∨ m.trend = "弱勢")
    ∧ m.score = jsRound (clamp (50
        + (match m.m3 with | some r => max (-20) (min 20 (r * 200)) | none => 0)
        + (match m.m6 with | some r => max (-15) (min 15 (r * 150)) | none => 0)
        + (match m.m12 with | some r => max (-10) (min 10 (r * 100)) | none => 0)
        + (match m.rsi14 with
            | some r => max (-10) (min 10 ((r - 50) / 2)) | none => 0)
        + (match m.volume_ratio with
            | some r => max (-10) (min 10 ((r - 1) * 20)) | none => 0)
        + (if m.above50 = some true then 5
            else if m.above50 = some false then -5 else 0)
        + (if m.above200 = some true then 5
            else if m.above200 = some false then -5 else 0)) 0 100)
    ∧ (0 ≤ m.score ∧ m.score ≤ 100) := by
  unfold computeMomentumCore at h
  by_cases hlen : series.length < 60
  · rw [if_pos hlen] at h
    cases h
  · rw [if_neg hlen] at h
    injection h with h2
    subst h2
    refine ⟨?_, ?_, momTrend_cases _ _ _, rfl, jsRound_clamp_bounds _⟩
    · simp only [momTrend_strong_iff, mapLtTrue_iff, m3AboveB_iff]
    · simp only [momTrend_weak_iff, mapLtFalse_iff, m3BelowB_iff]

/-- C4 amended witness: the amended theorem applied to the concrete
200-bar series, extracting the weak classification and score bounds. -/
theorem claim_C4_amended_witness :
    mC4.trend = "弱勢"
    ∧ ((∃ a, mC4.ma50 = some a ∧ mC4.price ≤ a)
       ∧ (∃ b, mC4.ma200 = some b ∧ mC4.price ≤ b)
       ∧ (∃ r, mC4.m3 = some r ∧ r < -((1:ℚ)/20)))
    ∧ 0 ≤ mC4.score ∧ mC4.score ≤ 100 := by
  obtain ⟨_hs, hwk, _ht, _hsc, hb⟩ :=
    claim_C4_amended series200 mC4 momCore_series200
  exact ⟨rfl, hwk.mp rfl, hb.1, hb.2⟩

/-! ### Price-meta construction (src/server.js:1479-1563)

The `finnhubPromise` price resolution as a pure function of the
outcomes of the individual fetches. `as_of` (a date string copied from
whichever source succeeded) is omitted: claim C2 concerns `kind` (and
`source`/`value` shape) only. Dates are modelled as day numbers, so
`parsedDate.isBefore(dayjs(), 'day')` is `baselineDate < today`. -/

/-- Outcomes of the price fetches feeding one `performAnalysis` run.
`none` means the fetch threw (historical: `getHistoricalPrice` after
retries — it throws when no source yields a price, see
src/lib/historicalPrice.js:92; quotes: the adapters throw rather than
return a null price, see src/lib/fmp.js:21-38). -/
structure PriceFetchEnv where
  histOutcome : Option (ℚ × String)
  cachedRealtime : Option (ℚ × Option String)
  hasFmpKey : Bool
  fmpQuote : Option ℚ
  yahooQuote : Option (ℚ × String)
deriving Repr

/-- The fields of `priceMeta` the claim touches. -/
structure PriceMetaM where
  source : String
  kind : String
  value : Option ℚ
deriving Repr

/-- The `priceMeta` mutation sequence of src/server.js:1487-1563 as a
pure function: the historical/real-time branch, then the two shared
fallbacks (`current==null && FMP_KEY` re-quote and the Yahoo re-quote),
each of which overwrites `kind` with `real-time`. Each intermediate is
`(source, kind, current)`. -/
def computePriceMeta (isHistorical : Bool) (env : PriceFetchEnv) : PriceMetaM :=
  let s0 : String × String × Option ℚ :=
    if isHistorical then
      match env.histOutcome with
      | some (p, src) => (src, "historical", some p)
      | none => ("real-time_fallback", "real-time", none)
    else
      let c0 : Option ℚ × String :=
        match env.cachedRealtime with
        | some (p, srcOpt) => (some p, srcOpt.getD "fmp_batch_quote")
        | none => (none, "real-time_missing")
      let c1 : Option ℚ × String :=
        if env.hasFmpKey = true ∧ c0.1 = none then
          match env.fmpQuote with
          | some p => (some p, "fmp_quote")
          | none => c0
        else c0
      let c2 : Option ℚ × String :=
        if c1.1 = none then
          match env.yahooQuote with
          | some (p, src) => (some p, src)
          | none => c1
        else c1
      let c3 : Option ℚ × String :=
        if c2.1 = none then (c2.1, "real-time_fallback") else c2
      (c3.2, "real-time", c3.1)
  let s1 : String × String × Option ℚ :=
    if s0.2.2 = none ∧ env.hasFmpKey = true then
      match env.fmpQuote with
      | some p => ("fmp_quote", "real-time", some p)
      | none => s0
    else s0
  let s2 : String × String × Option ℚ :=
    if s1.2.2 = none then
      match env.yahooQuote with
      | some (p, src) => (src, "real-time", some p)
      | none => s1
    else s1
  { source := s2.1, kind := s2.2.1, value := s2.2.2 }

/-- `performAnalysis` derives `isHistorical = parsedDate.isBefore(dayjs(),
'day')` (src/server.js:1406) and builds the price meta from it. -/
def performAnalysisPriceMeta (baselineDate today : ℤ) (env : PriceFetchEnv) :
    PriceMetaM :=
  computePriceMeta (decide (baselineDate < today)) env

/-- All-sources-fail environment (FMP key configured). -/
def envFail : PriceFetchEnv :=
  { histOutcome := none, cachedRealtime := none, hasFmpKey := true,
    fmpQuote := none, yahooQuote := none }

lemma computePriceMeta_kind (ih : Bool) (env : PriceFetchEnv) :
    (computePriceMeta ih env).kind
      = if ih = true ∧ env.histOutcome.isSome then "historical" else "real-time" := by
  obtain ⟨ho, cr, hk, fq, yq⟩ := env
  cases ih <;> rcases ho with _ | ⟨p, src⟩ <;> rcases cr with _ | ⟨p2, so⟩ <;>
    cases hk <;> rcases fq with _ | p3 <;> rcases yq with _ | ⟨p4, src4⟩ <;>
      simp [computePriceMeta]

/-- C2 counterexample: for a baseline date strictly before today with
every historical price source failing (and the real-time fallbacks also
failing), `price_meta.kind` is `real-time`, not `historical`: the catch
of the historical branch sets `source = real-time_fallback` and
`kind = real-time` (src/server.js:1499-1502). -/
theorem claim_C2_counterexample :
    (performAnalysisPriceMeta 0 1 envFail).kind = "real-time"
    ∧ (0:ℤ) < 1
    ∧ ¬ (performAnalysisPriceMeta 0 1 envFail).kind = "historical" := by
  refine ⟨rfl, by norm_num, ?_⟩
  intro h
  exact absurd h (by decide)

/-- C2 (amended): `price_meta.kind` is `historical` iff the baseline
date is strictly before today AND the historical price chain succeeded;
whenever the historical fetch throws (or the date is not historical)
the kind is `real-time`. -/
theorem claim_C2_amended (baselineDate today : ℤ) (env : PriceFetchEnv) :
    ((performAnalysisPriceMeta baselineDate today env).kind = "historical"
      ↔ (baselineDate < today ∧ env.histOutcome.isSome))
    ∧ ((performAnalysisPriceMeta baselineDate today env).kind = "historical"
       ∨ (performAnalysisPriceMeta baselineDate today env).kind = "real-time") := by
  unfold performAnalysisPriceMeta
  rw [computePriceMeta_kind]
  by_cases h : (decide (baselineDate < today)) = true ∧ env.histOutcome.isSome
  · rw [if_pos h]
    constructor
    · exact iff_of_true rfl ⟨of_decide_eq_true h.1, h.2⟩
    · exact Or.inl rfl
  · rw [if_neg h]
    constructor
    · refine iff_of_false (by decide) ?_
      rintro ⟨hlt, hsome⟩
      exact h ⟨decide_eq_true hlt, hsome⟩
    · exact Or.inr rfl

/-! ### Cached-only mode (src/server.js:1412-1458, 1975-1996)

The prefix of `performAnalysis` up to (and including) the
`preferCacheOnly` return/throw, against an abstract results store, plus
the `/api/analyze` error mapping. `analyzeWithLLM` and all fragment
fetches are reachable only through the `.proceed` outcome (they start at
`getCIK`, src/server.js:1459, after the cache-only throw). -/

/-- A stored analysis bundle; only the presence of `analysis` matters
to the cache stage (`requireAnalysis`). -/
structure Bundle where
  analysis : Option String
  body : String
deriving Repr, DecidableEq

/-- A results-store record: `{result, updated_at}`. -/
structure StoredRecord where
  result : Bundle
  updated_at : ℤ
deriving Repr, DecidableEq

/-- The results store, keyed by `(ticker, baselineDate, model)`. -/
def AnalysisStore : Type := String × String × String → Option StoredRecord

/-- `getStoredResult` of `lib/analysisStore.js`: plain keyed read
(spec §4.3: "Read returns the record unconditionally; freshness is
decided by the caller"). -/
def getStoredResult (store : AnalysisStore) (ticker date model : String) :
    Option StoredRecord :=
  store (ticker, date, model)

/-- Modelled from the spec: `getCachedAnalysis` of `lib/analysisStore.js`
is not under src/; from spec §4.3/§4.7 and the call shape
(src/server.js:1420-1427: `ticker, baselineDate, ttlMs, model,
requireAnalysis`) it returns the stored bundle iff a record exists under
the key, it is fresh within `ttlMs`, and — when `requireAnalysis` — the
stored `analysis` is non-null. -/
def getCachedAnalysis (store : AnalysisStore) (now : ℤ) (ticker date : String)
    (ttlMs : ℤ) (model : String) (requireAnalysis : Bool) : Option Bundle :=
  match store (ticker, date, model) with
  | some rec =>
      if now - rec.updated_at ≤ ttlMs
          ∧ (requireAnalysis = false ∨ rec.result.analysis.isSome) then
        some rec.result
      else none
  | none => none

/-- Outcome of the cache stage: a returned bundle, or continuation into
the fragment fan-out and (unless skipped) the LLM call. -/
inductive CacheStageOutcome where
  | finished (b : Bundle)
  | proceed
deriving Repr, DecidableEq

/-- src/server.js:1412-1458: model-variant key resolution, the
`cacheLookupKeys` loop over `getCachedAnalysis`, the stored-record
lookups, and the `preferCacheOnly` return/`cache_miss` throw. The
cache-hit rewrite under the current variant (line 1432) is a store
write and does not change the returned bundle. -/
def performAnalysisCacheStage (store : AnalysisStore) (now : ℤ)
    (ticker date : String) (analysisTtl : ℤ) (llmModel : String)
    (preferCacheOnly skipLlm : Bool) : Except String CacheStageOutcome :=
  let cacheModelKey := if skipLlm then llmModel ++ "__metrics" else llmModel ++ "__full"
  let cacheLookupKeys := if skipLlm then [cacheModelKey] else [cacheModelKey, llmModel]
  let cacheHit : Option Bundle :=
    (cacheLookupKeys.filterMap (fun key =>
      getCachedAnalysis store now ticker date analysisTtl key (!skipLlm))).head?
  match cacheHit with
  | some b => .ok (.finished b)
  | none =>
      let storedRecord : Option StoredRecord :=
        match getStoredResult store ticker date cacheModelKey with
        | some r => some r
        | none =>
            if skipLlm then none else getStoredResult store ticker date llmModel
      match storedRecord with
      | some r =>
          if preferCacheOnly ∧ now - r.updated_at ≤ analysisTtl then
            .ok (.finished r.result)
          else if preferCacheOnly then .error ("cache_miss")
          else .ok .proceed
      | none =>
          if preferCacheOnly then .error ("cache_miss") else .ok .proceed

/-- The `/api/analyze` catch clause (src/server.js:1990-1995): status
and error body for a thrown message. -/
def analyzeRouteError (msg : String) : ℕ × String :=
  if msg = "cache_miss" then (409, "cached result unavailable") else (500, msg)

/-- Empty store used by the C5 witness. -/
def storeEmpty : AnalysisStore := fun _ => none

/-- Spec-side reading of C5's final clause, from the claim's words: a
stored bundle of the request's model - under either of the two lookup
keys the code uses for it - is fresh within the analysis TTL. -/
def claimSpec_freshStoredBundle (store : AnalysisStore) (now : ℤ)
    (ticker date llmModel : String) (analysisTtl : ℤ) : Prop :=
  ∃ r, (store (ticker, date, llmModel ++ "__full") = some r
        ∨ store (ticker, date, llmModel) = some r)
    ∧ now - r.updated_at ≤ analysisTtl

/-- Counterexample store for C5: a stale full-variant record masking a
fresh analysis-less bundle under the bare model key. -/
def storeC5cx : AnalysisStore := fun k =>
  if k = ("NVDA", "2024-01-02", "gpt__full") then
    some { result := { analysis := some "old", body := "stale" }, updated_at := -200 }
  else if k = ("NVDA", "2024-01-02", "gpt") then
    some { result := { analysis := none, body := "fresh" }, updated_at := 0 }
  else none

/-- C5 counterexample: with TTL 100 at time 0, the `gpt__full` record is
stale (age 200) and the bare `gpt` record is fresh but has a null
`analysis`.  A fresh stored bundle exists, yet the cache stage throws
`cache_miss`: the `cacheLookupKeys` loop skips the bare record
(`requireAnalysis`), and the stored-record fallback
(src/server.js:1437-1440) only consults the bare key when the variant
lookup returned nothing - here it returned the stale record, which then
fails the freshness test (src/server.js:1452-1456). -/
theorem claim_C5_counterexample :
    claimSpec_freshStoredBundle storeC5cx 0 ("NVDA") ("2024-01-02") ("gpt") 100
    ∧ performAnalysisCacheStage storeC5cx 0 ("NVDA") ("2024-01-02") 100 ("gpt") true false
        = .error ("cache_miss") := by
  constructor
  · exact ⟨{ result := { analysis := none, body := "fresh" }, updated_at := 0 },
      Or.inr rfl, by norm_num⟩
  · rfl

/-- C5 (amended): in cached-only mode (`preferCacheOnly`, LLM not
skipped), if no record fresh within the analysis TTL exists under the
request's variant key or the bare model key, the cache stage throws
exactly `cache_miss` and never reaches `.proceed` (so no fragment fetch
or `analyzeWithLLM` call); the route maps exactly `cache_miss` to 409
with body `cached result unavailable`; a fresh stored bundle under the
variant key is returned unchanged (possibly the fresh bare-model bundle
when the variant record lacks an analysis); and a fresh stored bundle
under the bare model key is returned unchanged provided its `analysis`
is non-null or no record at all sits under the variant key - the one
uncovered corner (stale variant record over a fresh analysis-less bare
bundle) is the counterexample's `cache_miss`. -/
theorem claim_C5_amended (store : AnalysisStore) (now : ℤ)
    (ticker date llmModel : String) (analysisTtl : ℤ) :
    ((∀ r, store (ticker, date, llmModel ++ "__full") = some r →
        analysisTtl < now - r.updated_at) →
     (∀ r, store (ticker, date, llmModel) = some r →
        analysisTtl < now - r.updated_at) →
     performAnalysisCacheStage store now ticker date analysisTtl llmModel true false
       = .error ("cache_miss")
     ∧ performAnalysisCacheStage store now ticker date analysisTtl llmModel true false
       ≠ .ok .proceed)
    ∧ (analyzeRouteError ("cache_miss") = (409, "cached result unavailable")
       ∧ ∀ msg, (analyzeRouteError msg).1 = 409 → msg = "cache_miss")
    ∧ (∀ r, store (ticker, date, llmModel ++ "__full") = some r →
        now - r.updated_at ≤ analysisTtl →
        ∃ r2, (store (ticker, date, llmModel ++ "__full") = some r2
               ∨ store (ticker, date, llmModel) = some r2)
          ∧ now - r2.updated_at ≤ analysisTtl
          ∧ performAnalysisCacheStage store now ticker date analysisTtl llmModel
              true false = .ok (.finished r2.result))
    ∧ (∀ r, store (ticker, date, llmModel) = some r →
        now - r.updated_at ≤ analysisTtl →
        (r.result.analysis.isSome = true
         ∨ store (ticker, date, llmModel ++ "__full") = none) →
        ∃ r2, (store (ticker, date, llmModel ++ "__full") = some r2
               ∨ store (ticker, date, llmModel) = some r2)
          ∧ now - r2.updated_at ≤ analysisTtl
          ∧ performAnalysisCacheStage store now ticker date analysisTtl llmModel
              true false = .ok (.finished r2.result)) := by
  refine ⟨?_, ⟨rfl, ?_⟩, ?_, ?_⟩
  · intro hfull hbare
    have hca1 : getCachedAnalysis store now ticker date analysisTtl
        (llmModel ++ "__full") true = none := by
      unfold getCachedAnalysis
      cases hr : store (ticker, date, llmModel ++ "__full") with
      | none => rfl
      | some r =>
          have hnot : ¬ (now - r.updated_at ≤ analysisTtl) :=
            not_le.mpr (hfull r hr)
          simp [hnot]
    have hca2 : getCachedAnalysis store now ticker date analysisTtl
        llmModel true = none := by
      unfold getCachedAnalysis
      cases hr : store (ticker, date, llmModel) with
      | none => rfl
      | some r =>
          have hnot : ¬ (now - r.updated_at ≤ analysisTtl) :=
            not_le.mpr (hbare r hr)
          simp [hnot]
    have hmain : performAnalysisCacheStage store now ticker date analysisTtl llmModel
        true false = .error ("cache_miss") := by
      unfold performAnalysisCacheStage getStoredResult
      cases hr : store (ticker, date, llmModel ++ "__full") with
      | some r =>
          have hnot : ¬ (now - r.updated_at ≤ analysisTtl) :=
            not_le.mpr (hfull r hr)
          simp [hca1, hca2, hr, hnot]
      | none =>
          cases hr2 : store (ticker, date, llmModel) with
          | some r2 =>
              have hnot : ¬ (now - r2.updated_at ≤ analysisTtl) :=
                not_le.mpr (hbare r2 hr2)
              simp [hca1, hca2, hr, hr2, hnot]
          | none =>
              simp [hca1, hca2, hr, hr2]
    exact ⟨hmain, by rw [hmain]; intro hc; cases hc⟩
  · intro msg h
    unfold analyzeRouteError at h
    by_cases hm : msg = "cache_miss"
    · exact hm
    · rw [if_neg hm] at h
      simp at h
  · intro r hr hfresh
    by_cases ha : r.result.analysis.isSome
    · refine ⟨r, Or.inl hr, hfresh, ?_⟩
      have hca1 : getCachedAnalysis store now ticker date analysisTtl
          (llmModel ++ "__full") true = some r.result := by
        unfold getCachedAnalysis
        simp [hr, hfresh, ha]
      unfold performAnalysisCacheStage
      simp [hca1]
    · have hca1 : getCachedAnalysis store now ticker date analysisTtl
          (llmModel ++ "__full") true = none := by
        unfold getCachedAnalysis
        simp [hr, Option.not_isSome_iff_eq_none.mp ha]
      rcases hca2v : getCachedAnalysis store now ticker date analysisTtl
          llmModel true with _ | b2
      · refine ⟨r, Or.inl hr, hfresh, ?_⟩
        unfold performAnalysisCacheStage getStoredResult
        simp [hca1, hca2v, hr, hfresh]
      · obtain ⟨r2, hr2, hfresh2, hb⟩ : ∃ r2, store (ticker, date, llmModel) = some r2
            ∧ now - r2.updated_at ≤ analysisTtl ∧ b2 = r2.result := by
          unfold getCachedAnalysis at hca2v
          cases hr2 : store (ticker, date, llmModel) with
          | none => rw [hr2] at hca2v; cases hca2v
          | some r2 =>
              rw [hr2] at hca2v
              have hca2b : (if now - r2.updated_at ≤ analysisTtl
                  ∧ (true = false ∨ r2.result.analysis.isSome = true)
                  then some r2.result else none) = some b2 := hca2v
              by_cases hcnd : now - r2.updated_at ≤ analysisTtl
                  ∧ (true = false ∨ r2.result.analysis.isSome = true)
              · rw [if_pos hcnd] at hca2b
                injection hca2b with hb
                exact ⟨r2, rfl, hcnd.1, hb.symm⟩
              · rw [if_neg hcnd] at hca2b
                cases hca2b
        refine ⟨r2, Or.inr hr2, hfresh2, ?_⟩
        unfold performAnalysisCacheStage
        simp [hca1, hca2v, hb]
  · intro r hrB hfresh hside
    by_cases ha : r.result.analysis.isSome
    · have hcaB : getCachedAnalysis store now ticker date analysisTtl
          llmModel true = some r.result := by
        unfold getCachedAnalysis
        simp [hrB, hfresh, ha]
      rcases hca1v : getCachedAnalysis store now ticker date analysisTtl
          (llmModel ++ "__full") true with _ | b1
      · refine ⟨r, Or.inr hrB, hfresh, ?_⟩
        unfold performAnalysisCacheStage
        simp [hca1v, hcaB]
      · obtain ⟨f, hf, hffresh, hb⟩ : ∃ f, store (ticker, date, llmModel ++ "__full")
            = some f ∧ now - f.updated_at ≤ analysisTtl ∧ b1 = f.result := by
          unfold getCachedAnalysis at hca1v
          cases hf : store (ticker, date, llmModel ++ "__full") with
          | none => rw [hf] at hca1v; cases hca1v
          | some f =>
              rw [hf] at hca1v
              have hca1b : (if now - f.updated_at ≤ analysisTtl
                  ∧ (true = false ∨ f.result.analysis.isSome = true)
                  then some f.result else none) = some b1 := hca1v
              by_cases hcnd : now - f.updated_at ≤ analysisTtl
                  ∧ (true = false ∨ f.result.analysis.isSome = true)
              · rw [if_pos hcnd] at hca1b
                injection hca1b with hb
                exact ⟨f, rfl, hcnd.1, hb.symm⟩
              · rw [if_neg hcnd] at hca1b
                cases hca1b
        refine ⟨f, Or.inl hf, hffresh, ?_⟩
        unfold performAnalysisCacheStage
        simp [hca1v, hb]
    · have hFnone : store (ticker, date, llmModel ++ "__full") = none := by
        rcases hside with h1 | h2
        · exact absurd h1 ha
        · exact h2
      have hca1 : getCachedAnalysis store now ticker date analysisTtl
          (llmModel ++ "__full") true = none := by
        unfold getCachedAnalysis
        simp [hFnone]
      have hcaB : getCachedAnalysis store now ticker date analysisTtl
          llmModel true = none := by
        unfold getCachedAnalysis
        simp [hrB, Option.not_isSome_iff_eq_none.mp ha]
      refine ⟨r, Or.inr hrB, hfresh, ?_⟩
      unfold performAnalysisCacheStage getStoredResult
      simp [hca1, hcaB, hFnone, hrB, hfresh]

/-- Fresh bare-model record used by the C5 witness store. -/
def c5wRecord : StoredRecord :=
  { result := { analysis := some "a", body := "b" }, updated_at := 0 }

/-- Witness store for C5's bare-key return clause: a single fresh record
under the bare model key. -/
def storeC5w : AnalysisStore := fun k =>
  if k = ("NVDA", "2024-01-02", "gpt") then some c5wRecord else none

/-- C5 witness: with an empty store the cached-only stage throws
`cache_miss` and the route maps it to 409; with the single fresh
bare-key record, the cached-only stage returns a fresh stored bundle. -/
theorem claim_C5_amended_witness :
    (performAnalysisCacheStage storeEmpty 0 ("NVDA") ("2024-01-02") 100 ("gpt") true false
      = .error ("cache_miss")
    ∧ analyzeRouteError ("cache_miss") = (409, "cached result unavailable"))
    ∧ (storeC5w ("NVDA", "2024-01-02", "gpt") = some c5wRecord
       ∧ (0 : ℤ) - c5wRecord.updated_at ≤ 100
       ∧ c5wRecord.result.analysis.isSome = true
       ∧ ∃ r2, (storeC5w ("NVDA", "2024-01-02", "gpt" ++ "__full") = some r2
                ∨ storeC5w ("NVDA", "2024-01-02", "gpt") = some r2)
           ∧ (0 : ℤ) - r2.updated_at ≤ 100
           ∧ performAnalysisCacheStage storeC5w 0 ("NVDA") ("2024-01-02") 100 ("gpt")
               true false = .ok (.finished r2.result)) := by
  have h0 := claim_C5_amended storeEmpty 0 ("NVDA") ("2024-01-02") ("gpt") 100
  have hw := claim_C5_amended storeC5w 0 ("NVDA") ("2024-01-02") ("gpt") 100
  refine ⟨⟨(h0.1 (fun r hr => by cases hr) (fun r hr => by cases hr)).1, h0.2.1.1⟩,
    rfl, by decide, rfl, ?_⟩
  exact hw.2.2.2 c5wRecord rfl (by decide) (Or.inl rfl)

/-! ### Batch executor (src/server.js:1378-1392, 2016-2126)

`mapWithConcurrency` spawns `size = max(1, min(limit, n))` workers over
a shared counter; each loop iteration synchronously claims
`current = index++` and then awaits `mapper(items[current], current)`
into `results[current]`. The counter hand-out is atomic (single-threaded
event loop), so indices are claimed in increasing order exactly once
and slot `i` always receives `mapper(items[i], i)` regardless of worker
interleaving; the pool size bounds concurrency only. The model below
replays the claims sequentially — one `poolStep` per claimed index. -/

/-- Shared pool state: the claim counter and the results array. -/
structure PoolState (β : Type) where
  index : ℕ
  results : List (Option β)
deriving Repr

/-- One claim-and-store iteration of a worker
(src/server.js:1383-1387). -/
def poolStep {α β : Type} (items : List α) (mapper : α → ℕ → β)
    (s : PoolState β) : PoolState β :=
  if h : s.index < items.length then
    { index := s.index + 1,
      results := s.results.set s.index (some (mapper (items.get ⟨s.index, h⟩) s.index)) }
  else s

/-- `mapWithConcurrency(items, limit, mapper)` from
src/server.js:1378-1392: the results array after all claims complete
(`Promise.all(workers)`); `[]` when the input is empty. -/
def mapWithConcurrency {α β : Type} (items : List α) (limit : ℕ)
    (mapper : α → ℕ → β) : List (Option β) :=
  if items.isEmpty then []
  else ((poolStep items mapper)^[items.length]
    { index := 0, results := List.replicate items.length none }).results

lemma poolStep_of_ge {α β : Type} (items : List α) (mapper : α → ℕ → β)
    (s : PoolState β) (h : items.length ≤ s.index) :
    poolStep items mapper s = s := by
  unfold poolStep
  rw [dif_neg (not_lt.mpr h)]

lemma poolIter_length {α β : Type} (items : List α) (mapper : α → ℕ → β) (k : ℕ) :
    ∀ (s : PoolState β),
      (((poolStep items mapper)^[k]) s).results.length = s.results.length := by
  induction k with
  | zero => intro s; rfl
  | succ n ih =>
      intro s
      rw [Function.iterate_succ_apply]
      rw [ih]
      unfold poolStep
      by_cases h : s.index < items.length
      · rw [dif_pos h]
        simp
      · rw [dif_neg h]

lemma poolIter_getElem {α β : Type} (items : List α) (mapper : α → ℕ → β) :
    ∀ (k j : ℕ) (res : List (Option β)),
      ∀ i, ((poolStep items mapper)^[k] { index := j, results := res }).results[i]?
        = if j ≤ i ∧ i < j + k ∧ i < items.length
          then (res[i]?).map (fun _ => items[i]?.map (fun a => mapper a i))
          else res[i]? := by
  intro k
  induction k with
  | zero =>
      intro j res i
      rw [if_neg (by omega)]
      rfl
  | succ n ih =>
      intro j res i
      rw [Function.iterate_succ_apply]
      by_cases hj : j < items.length
      · have hstep : poolStep items mapper { index := j, results := res }
            = { index := j + 1,
                results := res.set j (some (mapper (items.get ⟨j, hj⟩) j)) } := by
          unfold poolStep
          rw [dif_pos hj]
        rw [hstep, ih (j + 1) _ i]
        by_cases hij : i = j
        · subst hij
          rw [if_neg (by omega)]
          rw [if_pos ⟨le_refl i, by omega, hj⟩]
          by_cases hlen : i < res.length
          · rw [List.getElem?_set_self (by omega)]
            rw [List.getElem?_eq_getElem hlen, List.getElem?_eq_getElem hj]
            rfl
          · have h1 : res[i]? = none := List.getElem?_eq_none (by omega)
            have h2 : (res.set i (some (mapper (items.get ⟨i, hj⟩) i)))[i]? = none :=
              List.getElem?_eq_none (by simp; omega)
            rw [h1, h2]
            rfl
        · rw [List.getElem?_set_ne (by omega)]
          by_cases hcond : j ≤ i ∧ i < j + (n + 1) ∧ i < items.length
          · rw [if_pos (by omega), if_pos hcond]
          · rw [if_neg (by omega), if_neg hcond]
      · have hstep : poolStep items mapper { index := j, results := res }
            = { index := j, results := res } :=
          poolStep_of_ge items mapper _ (by simp only []; omega)
        rw [hstep, ih j res i]
        by_cases hcond : j ≤ i ∧ i < j + n ∧ i < items.length
        · rw [if_pos hcond, if_pos (by omega)]
        · rw [if_neg hcond, if_neg (by omega)]

lemma mapWithConcurrency_spec {α β : Type} (items : List α) (limit : ℕ)
    (mapper : α → ℕ → β) :
    (mapWithConcurrency items limit mapper).length = items.length
    ∧ ∀ i a, items[i]? = some a →
        (mapWithConcurrency items limit mapper)[i]? = some (some (mapper a i)) := by
  unfold mapWithConcurrency
  by_cases he : items.isEmpty
  · rw [if_pos he]
    refine ⟨by simp [List.isEmpty_iff.mp he], ?_⟩
    intro i a ha
    rw [List.isEmpty_iff.mp he] at ha
    cases ha
  · rw [if_neg he]
    constructor
    · rw [poolIter_length]
      simp
    · intro i a ha
      have hi : i < items.length := by
        by_contra hge
        rw [List.getElem?_eq_none (by omega)] at ha
        cases ha
      rw [poolIter_getElem items mapper items.length 0 _ i]
      rw [if_pos ⟨by omega, by omega, hi⟩]
      rw [List.getElem?_replicate_of_lt hi, ha]
      rfl

/-! ### C9: /api/batch row construction (src/server.js:2016-2126) -/

/-- JS `task.ticker.toUpperCase()` as used on tickers in the batch handler
(src/server.js:2033, 2061). -/
def jsToUpper (s : String) : String := s.map Char.toUpper

/-- One parsed batch task: a valid `(ticker, date)` row of the uploaded file
(`parseBatchFile`, src/server.js:2023), together with its resolved model name
(`resolveModelName(task.model)`, src/server.js:2032). -/
structure BatchTask where
  ticker : String
  date : String
  model : String

/-- View of the fields of a `performAnalysis` result that the success branch of
the `/api/batch` row builder reads (src/server.js:2072-2112).  Each field holds
the value of the optional chain named alongside it, with `none` for a chain
that hits null or undefined (for string fields, `some ""` is an empty string,
distinct from `none`). -/
structure BatchResultView where
  inputTicker : String              -- result.input.ticker
  quoteC : Option ℚ                 -- (result.fetched?.finnhub_summary or empty).quote?.c
  targetPrice : Option ℚ            -- result.analysis?.action?.target_price
  rating : Option String            -- result.analysis?.action?.rating
  segmentLabel : Option String      -- result.analysis?.profile?.segment_label
  segment : Option String           -- result.analysis?.profile?.segment
  qualityScore : Option ℚ           -- result.analysis?.profile?.score
  sentimentLabel : Option String    -- result.news?.sentiment?.sentiment_label
  momentumScore : Option ℚ          -- (result.momentum or empty).score
  momentumTrend : Option String     -- (result.momentum or empty).trend
  instSignalLabel : Option String   -- result.institutional?.signal?.label
  instSummary : Option String       -- result.institutional?.summary
  ptMonthAvg : Option ℚ             -- analystSignals?.price_target_summary?.last_month?.avg
  ptQuarterAvg : Option ℚ           -- analystSignals?.price_target_summary?.last_quarter?.avg
  snapshotRating : Option String    -- analystSignals?.ratings?.snapshot?.rating
  ratingsTrend : Option String      -- analystSignals?.ratings?.trend
  gradeConsensus : Option String    -- analystSignals?.grades?.consensus?.consensus
  metricsRecentAvg : Option ℚ       -- analystMetrics?.price_targets?.recent_avg
  metricsGradesDiff : Option ℚ      -- analystMetrics?.grades?.diff_90d
  metricsHasRating : Bool           -- truthiness of analystMetrics?.rating
  metricsRatingLatest : Option String -- analystMetrics.rating.latest
  metricsRatingArrow : Option String  -- analystMetrics.rating.trend_arrow

/-- Outcome of the memoized `performAnalysis` call for one batch key: the
try/catch inside the batch mapper stores an ok/result pair or the caught
error (src/server.js:2035-2053). -/
inductive BatchOutcome where
  | ok (result : BatchResultView)
  | failed (message : String)

/-- One data row of the `/api/batch` CSV: the 20 output columns of `fields`
(src/server.js:2115).  A numeric cell is `Option ℚ`, `none` standing for the
empty cell produced by `?? ''`.  The error branch object (src/server.js:2060)
omits the last eight keys; `Papa.unparse` serializes those missing cells as
empty, i.e. `none` / `""` here. -/
structure BatchRow where
  ticker : String
  date : String
  model : String
  current_price : Option ℚ
  llm_target_price : Option ℚ
  recommendation : String
  segment : String
  quality_score : Option ℚ
  news_sentiment : String
  momentum_score : Option ℚ
  trend_flag : String
  institutional_signal : String
  pt_recent_month_avg : Option ℚ
  pt_recent_quarter_avg : Option ℚ
  analyst_rating : String
  analyst_rating_trend : String
  analyst_grade_consensus : String
  recent_avg_target : Option ℚ
  grades_diff : Option ℚ
  rating_trend : String

/-- `[a, b].filter(Boolean).join(' ')` on two strings (src/server.js:2090). -/
def filterBoolJoin (a b : String) : String :=
  if a = "" then b else if b = "" then a else a ++ " " ++ b

/-- `ratingTrendArrow` (src/server.js:2088-2090): when `analystMetrics.rating`
is truthy, joins `latest` and `trend_arrow` (each defaulted to `''` by `||`),
else falls back to `analystSignals?.ratings?.trend || ''`. -/
def ratingTrendArrow (v : BatchResultView) : String :=
  if v.metricsHasRating then
    filterBoolJoin (jsOrStr v.metricsRatingLatest "") (jsOrStr v.metricsRatingArrow "")
  else jsOrStr v.ratingsTrend ""

/-- `recentAvgTarget` (src/server.js:2086): the first non-nullish of
`analyst_metrics.price_targets.recent_avg` and `last_month.avg`, else the
empty cell. -/
def recentAvgTarget (v : BatchResultView) : Option ℚ :=
  match v.metricsRecentAvg with
  | some q => some q
  | none => v.ptMonthAvg

/-- The error-branch row of the batch mapper (src/server.js:2055-2070): the
ticker upper-cased, `recommendation` set to the string `ERROR: ` followed by
the error message - a `cache_miss` message being first replaced by
`CACHE_ONLY：無可用快取` (src/server.js:2056-2058) - and every other cell
empty. -/
def batchErrorRow (t : BatchTask) (message : String) : BatchRow :=
  { ticker := jsToUpper t.ticker
    date := t.date
    model := t.model
    current_price := none
    llm_target_price := none
    recommendation :=
      "ERROR: " ++ (if message = "cache_miss" then "CACHE_ONLY：無可用快取" else message)
    segment := ""
    quality_score := none
    news_sentiment := ""
    momentum_score := none
    trend_flag := ""
    institutional_signal := ""
    pt_recent_month_avg := none
    pt_recent_quarter_avg := none
    analyst_rating := ""
    analyst_rating_trend := ""
    analyst_grade_consensus := ""
    recent_avg_target := none
    grades_diff := none
    rating_trend := "" }

/-- The success-branch row (src/server.js:2072-2112).  Note
`ratingTrendArrow || ''` is the identity on strings, and
`recentAvgTarget ?? ''` is the identity on the already-coalesced cell. -/
def batchSuccessRow (deferredMode : Bool) (t : BatchTask) (v : BatchResultView) : BatchRow :=
  { ticker := v.inputTicker
    date := t.date
    model := t.model
    current_price := v.quoteC
    llm_target_price := v.targetPrice
    recommendation := if deferredMode then "DEFERRED" else v.rating.getD ""
    segment := jsOrStr v.segmentLabel (jsOrStr v.segment "")
    quality_score := v.qualityScore
    news_sentiment := jsOrStr v.sentimentLabel ""
    momentum_score := v.momentumScore
    trend_flag := jsOrStr v.momentumTrend ""
    institutional_signal := jsOrStr v.instSignalLabel (jsOrStr v.instSummary "")
    pt_recent_month_avg := v.ptMonthAvg
    pt_recent_quarter_avg := v.ptQuarterAvg
    analyst_rating := jsOrStr v.snapshotRating ""
    analyst_rating_trend := jsOrStr v.ratingsTrend ""
    analyst_grade_consensus := jsOrStr v.gradeConsensus ""
    recent_avg_target := recentAvgTarget v
    grades_diff := v.metricsGradesDiff
    rating_trend := ratingTrendArrow v }

/-- The batch mapper's row for one task given its memoized outcome
(src/server.js:2054-2112). -/
def buildBatchRow (deferredMode : Bool) (t : BatchTask) : BatchOutcome → BatchRow
  | .ok v => batchSuccessRow deferredMode t v
  | .failed msg => batchErrorRow t msg

/-- The `rows` list computed by the `/api/batch` handler (src/server.js:2031):
`mapWithConcurrency(tasks, concurrencyLimit, mapper)`, the mapper memoizing
`performAnalysis` per key `ticker.toUpperCase()__date__model__mode`
(src/server.js:2033).  `analyze` gives the memoized outcome for a key; two
tasks with the same key share one outcome, which the model captures by keying
`analyze` on the key components that vary per task (the mode is fixed for the
whole request). -/
def batchRows (tasks : List BatchTask) (limit : ℕ) (deferredMode : Bool)
    (analyze : String → String → String → BatchOutcome) : List (Option BatchRow) :=
  mapWithConcurrency tasks limit
    (fun t _ => buildBatchRow deferredMode t (analyze (jsToUpper t.ticker) t.date t.model))

/-- C9: for every batch upload parsed into n valid (ticker, date) tasks, the
/api/batch rows list has exactly n entries, entry i holding the row built for
task i, in input order; a task whose analysis fails does not fail the batch
and yields a row whose recommendation is the string `ERROR: ` followed by the
(possibly cache-miss-translated) message, with every numeric column empty;
and a successful task's row carries the analysis-derived columns
(DEFERRED overriding the rating in deferred mode). -/
theorem claim_C9_batch_rows (tasks : List BatchTask) (limit : ℕ)
    (deferredMode : Bool) (analyze : String → String → String → BatchOutcome) :
    (batchRows tasks limit deferredMode analyze).length = tasks.length
    ∧ (∀ (i : ℕ) (t : BatchTask), tasks[i]? = some t →
        (batchRows tasks limit deferredMode analyze)[i]? =
          some (some (buildBatchRow deferredMode t
            (analyze (jsToUpper t.ticker) t.date t.model))))
    ∧ (∀ t msg, buildBatchRow deferredMode t (.failed msg) = batchErrorRow t msg
        ∧ (batchErrorRow t msg).recommendation =
            "ERROR: " ++ (if msg = "cache_miss" then "CACHE_ONLY：無可用快取" else msg)
        ∧ (batchErrorRow t msg).ticker = jsToUpper t.ticker
        ∧ (batchErrorRow t msg).current_price = none
        ∧ (batchErrorRow t msg).llm_target_price = none
        ∧ (batchErrorRow t msg).quality_score = none
        ∧ (batchErrorRow t msg).momentum_score = none
        ∧ (batchErrorRow t msg).pt_recent_month_avg = none
        ∧ (batchErrorRow t msg).pt_recent_quarter_avg = none
        ∧ (batchErrorRow t msg).recent_avg_target = none
        ∧ (batchErrorRow t msg).grades_diff = none)
    ∧ (∀ t v, buildBatchRow deferredMode t (.ok v) = batchSuccessRow deferredMode t v
        ∧ (batchSuccessRow deferredMode t v).recommendation =
            (if deferredMode then "DEFERRED" else v.rating.getD "")
        ∧ (batchSuccessRow deferredMode t v).current_price = v.quoteC
        ∧ (batchSuccessRow deferredMode t v).llm_target_price = v.targetPrice
        ∧ (batchSuccessRow deferredMode t v).momentum_score = v.momentumScore
        ∧ (batchSuccessRow deferredMode t v).quality_score = v.qualityScore) := by
  refine ⟨(mapWithConcurrency_spec tasks limit _).1, ?_, ?_, ?_⟩
  · intro i t ht
    exact (mapWithConcurrency_spec tasks limit _).2 i t ht
  · intro t msg
    exact ⟨rfl, rfl, rfl, rfl, rfl, rfl, rfl, rfl, rfl, rfl, rfl⟩
  · intro t v
    exact ⟨rfl, rfl, rfl, rfl, rfl, rfl⟩

/-- A concrete result view for the C9 witness batch. -/
def wC9View : BatchResultView :=
  { inputTicker := "MSFT"
    quoteC := some 100
    targetPrice := some 120
    rating := some "BUY"
    segmentLabel := none
    segment := some "tech"
    qualityScore := some 80
    sentimentLabel := some "正面"
    momentumScore := some 55
    momentumTrend := some "中性"
    instSignalLabel := some "加碼"
    instSummary := none
    ptMonthAvg := some 118
    ptQuarterAvg := none
    snapshotRating := some "buy"
    ratingsTrend := some "improving"
    gradeConsensus := some "Buy"
    metricsRecentAvg := none
    metricsGradesDiff := some 2
    metricsHasRating := true
    metricsRatingLatest := some "buy"
    metricsRatingArrow := some "up" }

/-- A concrete memoized analysis for the C9 witness batch: the first key fails
with `cache_miss`, the second succeeds. -/
def wC9Analyze : String → String → String → BatchOutcome :=
  fun tk _ _ => if tk = "AAPL" then .failed "cache_miss" else .ok wC9View

/-- The concrete two-task batch for the C9 witness. -/
def wC9Tasks : List BatchTask :=
  [⟨"aapl", "2024-01-02", "gpt-4o"⟩, ⟨"MSFT", "2024-01-02", "gpt-4o"⟩]

/-- Witness for C9: on the concrete two-task batch, slot 0 receives the row of
task 0 (whose analysis fails with `cache_miss`) and slot 1 the row of task 1
(whose analysis succeeds). -/
theorem claim_C9_batch_rows_witness :
    wC9Tasks[0]? = some ⟨"aapl", "2024-01-02", "gpt-4o"⟩
    ∧ (batchRows wC9Tasks 4 false wC9Analyze)[0]? =
        some (some (buildBatchRow false ⟨"aapl", "2024-01-02", "gpt-4o"⟩
          (wC9Analyze (jsToUpper "aapl") "2024-01-02" "gpt-4o")))
    ∧ wC9Tasks[1]? = some ⟨"MSFT", "2024-01-02", "gpt-4o"⟩
    ∧ (batchRows wC9Tasks 4 false wC9Analyze)[1]? =
        some (some (buildBatchRow false ⟨"MSFT", "2024-01-02", "gpt-4o"⟩
          (wC9Analyze (jsToUpper "MSFT") "2024-01-02" "gpt-4o"))) := by
  refine ⟨rfl, ?_, rfl, ?_⟩
  · exact (claim_C9_batch_rows wC9Tasks 4 false wC9Analyze).2.1 0 _ rfl
  · exact (claim_C9_batch_rows wC9Tasks 4 false wC9Analyze).2.1 1 _ rfl


end EquityAnalyzer
